import Mathlib

/-!
Shallow embedding of the news-ingestion and deduplication pipeline of the
server-news-project backend, together with proofs of its specified
properties.

Source files embedded:
  * src/models/mysql/news.ts   (NewsModel: getOrCreateGenreId, insertNewsItem,
    insertSubnews, checkFetchDate, updateFetchDate, addNewsList)
  * src/services/fetchNews.ts  (isFetching / tryFetch / fetchNews)
  * src/services/saveImageUrl.ts (resolveImageUrl / saveUrlImage)
  * src/services/apiNews.ts    (apiData, modelled as an oracle)
  * src/dev_resources/dbCreation.ts (table DDL: unique news_url, the
    news_x_subnews foreign keys and the chk_subnews_unique CHECK)
  * src/enum/category.ts       (the fixed Category enumeration)
  * the valibot schemas (NewsImput / NewsItem / SubNewsItem)

Database state is modelled as explicit lists of rows; SQL statements become
functions on that state, with unique-key, foreign-key and CHECK constraints
of the DDL made explicit.  Fallible statements return Except.  UUID
generation (SELECT UUID()) is modelled by a monotone counter whose values
are opaque identifiers.
-/

namespace NewsPipeline

/-- Image block of a provider item (imagesSchema in the valibot schema):
thumbnail and thumbnailProxied are optional strings. -/
structure Images where
  thumbnail : Option String
  thumbnailProxied : Option String
deriving Repr, DecidableEq

/-- A nested sub-news item (subNewsSchema).  The provider timestamp is
modelled as epoch milliseconds; optional-nullable fields collapse to one
Option. -/
structure SubNewsItem where
  timestamp : Nat
  title : String
  snippet : String
  images : Option Images
  newsUrl : String
  publisher : String
  image_url : Option String
deriving Repr, DecidableEq

/-- A top-level provider item (itemSchema): a sub-news item shape plus the
optional-nullable subnews array and the hasSubnews flag.  The output-only
fields of the schema (id, likes, is_active, category) are not read by the
ingestion pipeline and are omitted. -/
structure NewsItem where
  timestamp : Nat
  title : String
  snippet : String
  images : Option Images
  newsUrl : String
  publisher : String
  image_url : Option String
  subnews : Option (List SubNewsItem)
  hasSubnews : Bool
deriving Repr, DecidableEq

/-- A validated provider batch (welcomeSchema). -/
structure NewsImput where
  status : String
  items : List NewsItem
deriving Repr, DecidableEq

/-- The fixed category enumeration (src/enum/category.ts). -/
inductive Category
  | entertainment
  | world
  | business
  | health
  | sport
  | science
  | technology
deriving Repr, DecidableEq

/-- The enum string value of a category (the lowercase provider tag). -/
def Category.name : Category → String
  | .entertainment => "entertainment"
  | .world => "world"
  | .business => "business"
  | .health => "health"
  | .sport => "sport"
  | .science => "science"
  | .technology => "technology"

/-- Object.values(Category): the fixed enumeration order used by both
orchestrators. -/
def Category.values : List Category :=
  [.entertainment, .world, .business, .health, .sport, .science, .technology]

/-- A row of the news table (dbCreation.ts DDL).  Identifiers (binary
UUIDs in the schema) are opaque and modelled as naturals; created is
seconds precision. -/
structure NewsRow where
  id : Nat
  created : Nat
  title : String
  snippet : String
  thumbnail : Option String
  thumbnailProxied : Option String
  hasSubnews : Bool
  newsUrl : String
  publisher : String
  newsGenre : Nat
  image_url : Option String
  isActive : Bool
deriving Repr, DecidableEq

/-- A row of the news_x_subnews link table. -/
structure LinkRow where
  newsId : Nat
  subnewsId : Nat
deriving Repr, DecidableEq

/-- A row of the genre lookup table. -/
structure GenreRow where
  id : Nat
  name : String
deriving Repr, DecidableEq

/-- The database tables the pipeline touches.  lastPull is the fecha value
(epoch milliseconds) of the single last_pull row with id 1, or none when
that row is missing. -/
structure DB where
  genres : List GenreRow
  news : List NewsRow
  links : List LinkRow
  lastPull : Option Int
deriving Repr, DecidableEq

/-- Database plus the UUID supply: nextId models SELECT UUID(), producing
opaque fresh identifiers. -/
structure Sys where
  db : DB
  nextId : Nat
deriving Repr, DecidableEq

/-- Storage-level errors: duplicate unique key, foreign-key violation,
CHECK-constraint violation, and the TypeError thrown by iterating the
non-null-asserted subnews field when it is absent. -/
inductive DbErr
  | dupKey
  | fkViolation
  | checkViolation
  | typeError
deriving Repr, DecidableEq

/-- SELECT ... FROM news WHERE news_url = ? (first matching row). -/
def selectNewsByUrl (url : String) (db : DB) : Option NewsRow :=
  db.news.find? (fun r => r.newsUrl == url)

/-- INSERT IGNORE INTO news: a unique-key conflict (primary key id or
unique news_url) silently skips the row; otherwise the row is appended. -/
def insertNewsIgnore (row : NewsRow) (db : DB) : DB :=
  if db.news.any (fun r => r.id == row.id || r.newsUrl == row.newsUrl) then db
  else { db with news := db.news ++ [row] }

/-- Plain INSERT INTO news: a unique-key conflict raises ER_DUP_ENTRY. -/
def insertNewsStrict (row : NewsRow) (db : DB) : Except DbErr DB :=
  if db.news.any (fun r => r.id == row.id || r.newsUrl == row.newsUrl) then .error .dupKey
  else .ok { db with news := db.news ++ [row] }

/-- The row transformation of the has_subnews UPDATE: rows with the given
id take the new flag, all other rows are untouched. -/
def updRow (id : Nat) (b : Bool) (r : NewsRow) : NewsRow :=
  if r.id == id then { r with hasSubnews := b } else r

/-- UPDATE news SET has_subnews = b WHERE id = UUID_TO_BIN(?). -/
def updateHasSubnews (id : Nat) (b : Bool) (db : DB) : DB :=
  { db with news := db.news.map (updRow id b) }

/-- INSERT INTO news_x_subnews (news_id, subnews_id): the DDL enforces
chk_subnews_unique CHECK (news_id <> subnews_id) and foreign keys from both
columns into news(id). -/
def insertLink (p c : Nat) (db : DB) : Except DbErr DB :=
  if p == c then .error .checkViolation
  else if db.news.any (fun r => r.id == p) && db.news.any (fun r => r.id == c) then
    .ok { db with links := db.links ++ [⟨p, c⟩] }
  else .error .fkViolation

/-- AUTO_INCREMENT id for a genre insert. -/
def nextGenreId (db : DB) : Nat :=
  (db.genres.foldr (fun g m => max g.id m) 0) + 1

/-- ASCII lowercase of a character, the behaviour of
String.prototype.toLowerCase on the ASCII category constants. -/
def lowerChar (c : Char) : Char :=
  if 65 ≤ c.toNat ∧ c.toNat ≤ 90 then Char.ofNat (c.toNat + 32) else c

/-- ASCII lowercase of a string (category.toLowerCase() in the source; the
category enum values are ASCII). -/
def lowerStr (s : String) : String :=
  ⟨s.data.map lowerChar⟩

/-- NewsModel.getOrCreateGenreId (news.ts 10-32): select the genre id by
lowercase name; when absent insert it and re-select.  These statements run
on the pool connection, outside the ingestion transaction. -/
def getOrCreateGenreId (category : Category) (db : DB) : Nat × DB :=
  let nm := lowerStr category.name
  match db.genres.find? (fun g => g.name == nm) with
  | some g => (g.id, db)
  | none =>
    let db1 : DB := { db with genres := db.genres ++ [⟨nextGenreId db, nm⟩] }
    match db1.genres.find? (fun g => g.name == nm) with
    | some g => (g.id, db1)
    | none => (0, db1)

/-- The news row written by NewsModel.insertNewsItem (news.ts 34-54):
created is FROM_UNIXTIME(Math.floor(timestamp / 1000)); is_active takes the
DDL default true. -/
def mkNewsRow (i : NewsItem) (genreId : Nat) (uuid : Nat) : NewsRow :=
  { id := uuid
    created := i.timestamp / 1000
    title := i.title
    snippet := i.snippet
    thumbnail := i.images.bind (·.thumbnail)
    thumbnailProxied := i.images.bind (·.thumbnailProxied)
    hasSubnews := i.hasSubnews
    newsUrl := i.newsUrl
    publisher := i.publisher
    newsGenre := genreId
    image_url := i.image_url
    isActive := true }

/-- NewsModel.insertNewsItem: an INSERT IGNORE of the full row. -/
def insertNewsItem (i : NewsItem) (genreId : Nat) (uuid : Nat) (db : DB) : DB :=
  insertNewsIgnore (mkNewsRow i genreId uuid) db

/-- The news row written for a sub-item inside insertSubnews: the insert
lists no has_subnews column, so it takes the DDL default false; is_active
defaults to true. -/
def mkSubRow (e : SubNewsItem) (genreId : Nat) (uuid : Nat) : NewsRow :=
  { id := uuid
    created := e.timestamp / 1000
    title := e.title
    snippet := e.snippet
    thumbnail := e.images.bind (·.thumbnail)
    thumbnailProxied := e.images.bind (·.thumbnailProxied)
    hasSubnews := false
    newsUrl := e.newsUrl
    publisher := e.publisher
    newsGenre := genreId
    image_url := e.image_url
    isActive := true }

/-- One iteration of the insertSubnews loop (news.ts 58-92): look the
sub-item up by news_url; reuse its id when present, otherwise generate a
fresh id and insert a full row (plain INSERT); then unconditionally insert
the link row. -/
def insertSubnewsStep (genreId parentUuid : Nat) (sys : Sys) (e : SubNewsItem) : Except DbErr Sys :=
  match selectNewsByUrl e.newsUrl sys.db with
  | some row =>
    (insertLink parentUuid row.id sys.db).map (fun db => { sys with db := db })
  | none =>
    match insertNewsStrict (mkSubRow e genreId sys.nextId) sys.db with
    | .error er => .error er
    | .ok db1 =>
      (insertLink parentUuid sys.nextId db1).map
        (fun db => { db := db, nextId := sys.nextId + 1 })

/-- NewsModel.insertSubnews (news.ts 56-94): the loop over the subnews
array; an error in any iteration propagates. -/
def insertSubnews (genreId parentUuid : Nat) : List SubNewsItem → Sys → Except DbErr Sys
  | [], sys => .ok sys
  | e :: rest, sys =>
    match insertSubnewsStep genreId parentUuid sys e with
    | .error er => .error er
    | .ok sys1 => insertSubnews genreId parentUuid rest sys1

/-- The body of the addNewsList loop (news.ts 266-290): find the main item
by news_url; reuse its id (updating has_subnews when the item declares
sub-items) or generate a fresh id and INSERT IGNORE a full row; when the
item declares sub-items, run insertSubnews on the non-null-asserted subnews
field — when that field is absent the for..of over undefined throws. -/
def processItem (genreId : Nat) (sys : Sys) (i : NewsItem) : Except DbErr Sys :=
  match selectNewsByUrl i.newsUrl sys.db with
  | some row =>
    match i.hasSubnews with
    | false => .ok sys
    | true =>
      match i.subnews with
      | some l =>
        insertSubnews genreId row.id l
          { sys with db := updateHasSubnews row.id i.hasSubnews sys.db }
      | none => .error .typeError
  | none =>
    match i.hasSubnews with
    | false => .ok { db := insertNewsItem i genreId sys.nextId sys.db, nextId := sys.nextId + 1 }
    | true =>
      match i.subnews with
      | some l =>
        insertSubnews genreId sys.nextId l
          { db := insertNewsItem i genreId sys.nextId sys.db, nextId := sys.nextId + 1 }
      | none => .error .typeError

/-- The addNewsList loop over the items of the batch. -/
def processItems (genreId : Nat) : List NewsItem → Sys → Except DbErr Sys
  | [], sys => .ok sys
  | i :: rest, sys =>
    match processItem genreId sys i with
    | .error er => .error er
    | .ok sys1 => processItems genreId rest sys1

/-- NewsModel.addNewsList (news.ts 259-305).  The genre lookup runs on the
pool connection before the transaction, so its effect survives a rollback;
any error inside the loop rolls the transaction back (news and links revert
to their pre-transaction contents) and is rethrown.  The UUID counter is
threaded through the transaction state; identifier values are opaque. -/
def addNewsList (news : NewsImput) (category : Category) (sys : Sys) : Sys × Except DbErr Unit :=
  let gdb := getOrCreateGenreId category sys.db
  let sys1 : Sys := { sys with db := gdb.2 }
  match processItems gdb.1 news.items sys1 with
  | .ok sys2 => (sys2, .ok ())
  | .error e => (sys1, .error e)

/-- Errors surfaced by an ingestion run: missing checkpoint row, active
cooldown with the remaining-days count, a category fetch or validation
failure (apiData throwing), a storage error while persisting a category,
and a failed checkpoint update. -/
inductive RunErr
  | noDate
  | cooldown (daysRemaining : Int)
  | apiFail (c : Category)
  | dbFail (c : Category) (e : DbErr)
  | updateFail
deriving Repr, DecidableEq

/-- NewsModel.checkFetchDate (news.ts 225-246): no last_pull row throws
"Failed to retrieve date"; otherwise diffDays = (now - fecha) / 86400000 in
real arithmetic, and diffDays < 10 throws the cooldown error with
Math.ceil(10 - diffDays) remaining days. -/
def checkFetchDate (lastPull : Option Int) (now : Int) : Except RunErr Unit :=
  match lastPull with
  | none => .error .noDate
  | some t =>
    let diffDays : ℚ := ((now - t : Int) : ℚ) / (1000 * 60 * 60 * 24)
    if diffDays < 10 then .error (.cooldown ⌈(10 : ℚ) - diffDays⌉)
    else .ok ()

/-- NewsModel.updateFetchDate (news.ts 248-257): UPDATE last_pull SET fecha
= NOW() WHERE id = 1, throwing when no row was affected. -/
def updateFetchDate (now : Int) (sys : Sys) : Except RunErr Sys :=
  match sys.db.lastPull with
  | none => .error .updateFail
  | some _ => .ok { sys with db := { sys.db with lastPull := some now } }

/-- The axios GET issued by resolveImageUrl: the target URL, the
maxRedirects limit, and whether validateStatus accepts every status. -/
structure GetRequest where
  url : String
  maxRedirects : Nat
  acceptAnyStatus : Bool
deriving Repr, DecidableEq

/-- Outcome of one HTTP GET: a thrown network error, or a response whose
final URL (request._redirectable._currentUrl) is a string or absent. -/
inductive HttpOutcome
  | failure
  | success (finalUrl : Option String)
deriving Repr, DecidableEq

/-- resolveImageUrl (saveImageUrl.ts 16-43).  A missing url — including the
falsy empty string — returns null without a request; otherwise a GET with
maxRedirects 5 and validateStatus accepting every status is issued; a
thrown error returns null; a missing, empty or blank final URL returns
null; otherwise the final URL is returned.  The context argument is used
only in log messages. -/
def resolveImageUrl (http : GetRequest → HttpOutcome) (url : Option String)
    (_context : String) : Option String :=
  match url with
  | none => none
  | some u =>
    if u = "" then none
    else
      match http { url := u, maxRedirects := 5, acceptAnyStatus := true } with
      | .failure => none
      | .success none => none
      | .success (some f) => if f.trim = "" then none else some f

/-- The sub-item update inside saveUrlImage: resolve the thumbnail into
image_url. -/
def saveUrlSub (http : GetRequest → HttpOutcome) (e : SubNewsItem) : SubNewsItem :=
  { e with image_url := resolveImageUrl http (e.images.bind (·.thumbnail)) e.title }

/-- The per-item body of saveUrlImage: resolve the item thumbnail, then,
when hasSubnews holds and the subnews array is present, resolve each
sub-item thumbnail. -/
def saveUrlItem (http : GetRequest → HttpOutcome) (i : NewsItem) : NewsItem :=
  let i1 : NewsItem :=
    { i with image_url := resolveImageUrl http (i.images.bind (·.thumbnail)) i.title }
  if i1.hasSubnews then
    match i1.subnews with
    | some subs => { i1 with subnews := some (subs.map (saveUrlSub http)) }
    | none => i1
  else i1

/-- saveUrlImage (saveImageUrl.ts 58-70). -/
def saveUrlImage (http : GetRequest → HttpOutcome) (newsArray : NewsImput) : NewsImput :=
  { newsArray with items := newsArray.items.map (saveUrlItem http) }

/-- The per-category loop shared by NewsController.fetchApi and the
fetchNews service: fetch the category payload (the api oracle returns none
when apiData throws on a non-200 status or a validation failure), resolve
thumbnails, persist through addNewsList, and accumulate the saved item
count; the first error stops the loop.  Returns the committed state, the
first error when there is one, and the count. -/
def runCats (api : Category → Option NewsImput) (http : GetRequest → HttpOutcome) :
    List Category → Sys → Sys × Option RunErr × Nat
  | [], sys => (sys, none, 0)
  | c :: rest, sys =>
    match api c with
    | none => (sys, some (.apiFail c), 0)
    | some payload =>
      let news := saveUrlImage http payload
      match addNewsList news c sys with
      | (sys1, .error e) => (sys1, some (.dbFail c e), 0)
      | (sys1, .ok ()) =>
        let r := runCats api http rest sys1
        (r.1, r.2.1, news.items.length + r.2.2)

/-- The HTTP response of the admin trigger: 200 with the saved count, or
500 carrying the error. -/
inductive ApiRes
  | ok200 (savedCount : Nat)
  | err500 (e : RunErr)
deriving Repr, DecidableEq

/-- NewsController.fetchApi: check the cooldown gate, run every category in
the fixed enumeration order, then update the checkpoint; any error is
caught and reported as a 500 response. -/
def fetchApi (api : Category → Option NewsImput) (http : GetRequest → HttpOutcome)
    (now : Int) (sys : Sys) : ApiRes × Sys :=
  match checkFetchDate sys.db.lastPull now with
  | .error e => (.err500 e, sys)
  | .ok _ =>
    let r := runCats api http Category.values sys
    match r.2.1 with
    | some e => (.err500 e, r.1)
    | none =>
      match updateFetchDate now r.1 with
      | .error e => (.err500 e, r.1)
      | .ok sys2 => (.ok200 r.2.2, sys2)

/-- Process state for the fetchNews service: the storage state plus the
process-wide isFetching flag (fetchNews.ts 5). -/
structure Proc where
  sys : Sys
  isFetching : Bool
deriving Repr, DecidableEq

/-- The body of the fetchNews service (fetchNews.ts 14-36): run every
category, then update the checkpoint; any error is caught and only logged;
the finally block clears the in-progress flag on every path. -/
def fetchNewsRun (api : Category → Option NewsImput) (http : GetRequest → HttpOutcome)
    (now : Int) (p : Proc) : Proc :=
  let r := runCats api http Category.values p.sys
  let sys1 :=
    match r.2.1 with
    | some _ => r.1
    | none =>
      match updateFetchDate now r.1 with
      | .error _ => r.1
      | .ok sys2 => sys2
  { sys := sys1, isFetching := false }

/-- tryFetch (fetchNews.ts 7-12): a trigger while a run is in progress
returns at once without an error; otherwise the flag is set and the run
executes. -/
def tryFetch (api : Category → Option NewsImput) (http : GetRequest → HttpOutcome)
    (now : Int) (p : Proc) : Proc :=
  if p.isFetching then p
  else fetchNewsRun api http now { p with isFetching := true }

/-- One iteration of the insertSubnews loop with the interference of a
concurrent ingestion run made explicit: every await in the source is a
suspension point, and raceRows are the news rows another connection commits
in the window between the existence SELECT missing and the INSERT running.
Apart from that injected commit this is insertSubnewsStep verbatim. -/
def insertSubnewsStepRaced (genreId parentUuid : Nat) (raceRows : List NewsRow)
    (sys : Sys) (e : SubNewsItem) : Except DbErr Sys :=
  match selectNewsByUrl e.newsUrl sys.db with
  | some row =>
    (insertLink parentUuid row.id sys.db).map (fun db => { sys with db := db })
  | none =>
    match insertNewsStrict (mkSubRow e genreId sys.nextId)
        { sys.db with news := sys.db.news ++ raceRows } with
    | .error er => .error er
    | .ok db1 =>
      (insertLink parentUuid sys.nextId db1).map
        (fun db => { db := db, nextId := sys.nextId + 1 })

/-- Decidable equality of Except results, used to evaluate concrete runs
of the model. -/
instance {ε α : Type} [DecidableEq ε] [DecidableEq α] : DecidableEq (Except ε α)
  | .ok x, .ok y =>
    if h : x = y then .isTrue (by rw [h]) else .isFalse (by intro hc; cases hc; exact h rfl)
  | .ok _, .error _ => .isFalse (by intro hc; cases hc)
  | .error _, .ok _ => .isFalse (by intro hc; cases hc)
  | .error x, .error y =>
    if h : x = y then .isTrue (by rw [h]) else .isFalse (by intro hc; cases hc; exact h rfl)

/-! ## Derived observations on the database state -/

/-- The id of the news row a source-URL lookup resolves to. -/
def urlId (db : DB) (u : String) : Option Nat :=
  (selectNewsByUrl u db).map (·.id)

/-- Some news row carries the source URL u. -/
def present (db : DB) (u : String) : Prop :=
  ∃ r ∈ db.news, r.newsUrl = u

/-- Some news row carries the id p. -/
def hasRowId (db : DB) (p : Nat) : Prop :=
  ∃ r ∈ db.news, r.id = p

/-- Every news row with id p has its has_subnews flag set. -/
def rowTrueAt (db : DB) (p : Nat) : Prop :=
  ∀ r ∈ db.news, r.id = p → r.hasSubnews = true

/-- Freshness of the identifier supply: every stored id is below the
counter, so a generated identifier never collides with a stored row —
the embedding of UUID uniqueness. -/
def IdsBounded (sys : Sys) : Prop :=
  ∀ r ∈ sys.db.news, r.id < sys.nextId

/-- No link row relates an article to itself. -/
def NoSelfLinks (db : DB) : Prop :=
  ∀ l ∈ db.links, l.newsId ≠ l.subnewsId

/-- Number of news rows carrying the source URL u. -/
def UrlCount (db : DB) (u : String) : Nat :=
  db.news.countP (fun r => r.newsUrl == u)

instance (db : DB) (p : Nat) : Decidable (hasRowId db p) :=
  decidable_of_iff (∃ r ∈ db.news, r.id = p) Iff.rfl

instance (db : DB) (u : String) : Decidable (present db u) :=
  decidable_of_iff (∃ r ∈ db.news, r.newsUrl = u) Iff.rfl

instance (db : DB) (p : Nat) : Decidable (rowTrueAt db p) :=
  decidable_of_iff (∀ r ∈ db.news, r.id = p → r.hasSubnews = true) Iff.rfl

instance (sys : Sys) : Decidable (IdsBounded sys) :=
  decidable_of_iff (∀ r ∈ sys.db.news, r.id < sys.nextId) Iff.rfl

instance (db : DB) : Decidable (NoSelfLinks db) :=
  decidable_of_iff (∀ l ∈ db.links, l.newsId ≠ l.subnewsId) Iff.rfl

/-- The category an ingestion-run error is attributed to, when any. -/
def RunErr.cat : RunErr → Option Category
  | .apiFail c => some c
  | .dbFail c _ => some c
  | _ => none

/-! ## C10: missing checkpoint row fails closed -/

/-- C10: when the last_pull table has no row, checkFetchDate raises the
"Failed to retrieve date" error rather than treating the state as no
previous run, so the cooldown-gated trigger is blocked before any category
work: the response is a 500 carrying that error and the state is
untouched. -/
theorem fetchApi_missing_checkpoint (api : Category → Option NewsImput)
    (http : GetRequest → HttpOutcome) (now : Int) (sys : Sys)
    (h : sys.db.lastPull = none) :
    checkFetchDate sys.db.lastPull now = .error .noDate ∧
    fetchApi api http now sys = (.err500 .noDate, sys) := by
  constructor
  · rw [h]; rfl
  · simp only [fetchApi, h, checkFetchDate]

/-- Witness for fetchApi_missing_checkpoint at a concrete empty-checkpoint
state. -/
theorem fetchApi_missing_checkpoint_witness :
    checkFetchDate (DB.lastPull ⟨[], [], [], none⟩) 5 = .error .noDate ∧
    fetchApi (fun _ => none) (fun _ => .failure) 5 ⟨⟨[], [], [], none⟩, 0⟩ =
      (.err500 .noDate, ⟨⟨[], [], [], none⟩, 0⟩) :=
  fetchApi_missing_checkpoint (fun _ => none) (fun _ => .failure) 5 ⟨⟨[], [], [], none⟩, 0⟩ rfl

/-! ## C7: cooldown gate with remaining-days count -/

/-- C7: a trigger arriving less than 10 days after the recorded last run
fails before any category work with the cooldown error whose remaining-days
count is the ceiling of 10 minus the elapsed days; a last run exactly 3
days in the past yields 7 remaining days. -/
theorem fetchApi_cooldown (api : Category → Option NewsImput)
    (http : GetRequest → HttpOutcome) (t now : Int) (sys : Sys)
    (hl : sys.db.lastPull = some t) (_h0 : 0 ≤ now - t) (h10 : now - t < 864000000) :
    fetchApi api http now sys =
      (.err500 (.cooldown ⌈(10 : ℚ) - ((now - t : Int) : ℚ) / (1000 * 60 * 60 * 24)⌉), sys) ∧
    (now - t = 259200000 →
      fetchApi api http now sys = (.err500 (.cooldown 7), sys)) := by
  have hq : ((now - t : Int) : ℚ) / (1000 * 60 * 60 * 24) < 10 := by
    rw [div_lt_iff₀ (by norm_num : (0 : ℚ) < 1000 * 60 * 60 * 24)]
    calc ((now - t : Int) : ℚ) < ((864000000 : Int) : ℚ) := by exact_mod_cast h10
      _ = 10 * (1000 * 60 * 60 * 24) := by norm_num
  have hmain : fetchApi api http now sys =
      (.err500 (.cooldown ⌈(10 : ℚ) - ((now - t : Int) : ℚ) / (1000 * 60 * 60 * 24)⌉), sys) := by
    simp only [fetchApi, checkFetchDate, hl, if_pos hq]
  refine ⟨hmain, fun h3 => ?_⟩
  rw [hmain, h3]
  have : ⌈(10 : ℚ) - ((259200000 : Int) : ℚ) / (1000 * 60 * 60 * 24)⌉ = 7 := by
    norm_num
  rw [this]

/-- Witness for fetchApi_cooldown: last run 3 days before now. -/
theorem fetchApi_cooldown_witness :
    fetchApi (fun _ => none) (fun _ => .failure) 259200000
        ⟨⟨[], [], [], some 0⟩, 0⟩ = (.err500 (.cooldown 7), ⟨⟨[], [], [], some 0⟩, 0⟩) :=
  (fetchApi_cooldown (fun _ => none) (fun _ => .failure) 0 259200000
      ⟨⟨[], [], [], some 0⟩, 0⟩ rfl (by decide) (by decide)).2 (by decide)

/-! ## C8: the redirect resolver is total and case-faithful -/

/-- C8: resolveImageUrl never raises: an absent input (or the falsy empty
string) returns nothing without a request; otherwise the GET is issued with
maxRedirects 5 and a validateStatus accepting every status, a thrown
network error becomes nothing, a missing final URL becomes nothing, a final
URL that trims to empty becomes nothing, and any other final URL is
returned. -/
theorem resolveImageUrl_total_cases (http : GetRequest → HttpOutcome) (ctx : String) :
    resolveImageUrl http none ctx = none ∧
    resolveImageUrl http (some "") ctx = none ∧
    ∀ u, u ≠ "" →
      (http ⟨u, 5, true⟩ = .failure → resolveImageUrl http (some u) ctx = none) ∧
      (http ⟨u, 5, true⟩ = .success none → resolveImageUrl http (some u) ctx = none) ∧
      (∀ f, http ⟨u, 5, true⟩ = .success (some f) → f.trim = "" →
        resolveImageUrl http (some u) ctx = none) ∧
      (∀ f, http ⟨u, 5, true⟩ = .success (some f) → f.trim ≠ "" →
        resolveImageUrl http (some u) ctx = some f) := by
  refine ⟨rfl, rfl, fun u hu => ⟨?_, ?_, ?_, ?_⟩⟩
  · intro h; simp only [resolveImageUrl, if_neg hu, h]
  · intro h; simp only [resolveImageUrl, if_neg hu, h]
  · intro f h ht; simp only [resolveImageUrl, if_neg hu, h, if_pos ht]
  · intro f h ht; simp only [resolveImageUrl, if_neg hu, h, if_neg ht]

/-- Witness for resolveImageUrl_total_cases: a network failure on a
concrete URL resolves to nothing instead of raising. -/
theorem resolveImageUrl_total_cases_witness :
    resolveImageUrl (fun _ => .failure) (some "https://a") "n" = none :=
  ((resolveImageUrl_total_cases (fun _ => .failure) "n").2.2
    "https://a" (by decide)).1 rfl

/-! ## C6: single run per process and guaranteed flag cleanup -/

/-- C6: a trigger arriving while the process-wide isFetching flag is set is
a silent no-op that starts nothing, and every completion path of a run —
success or failure — ends with the flag cleared by the finally block. -/
theorem fetch_flag_coalescing (api : Category → Option NewsImput)
    (http : GetRequest → HttpOutcome) (now : Int) (p : Proc) :
    (p.isFetching = true → tryFetch api http now p = p) ∧
    (fetchNewsRun api http now p).isFetching = false := by
  constructor
  · intro h; simp only [tryFetch, h, if_pos]
  · rfl

/-- Witness for fetch_flag_coalescing: a trigger during an in-flight run at
a concrete state. -/
theorem fetch_flag_coalescing_witness :
    tryFetch (fun _ => none) (fun _ => .failure) 0 ⟨⟨⟨[], [], [], none⟩, 0⟩, true⟩ =
      ⟨⟨⟨[], [], [], none⟩, 0⟩, true⟩ ∧
    (fetchNewsRun (fun _ => none) (fun _ => .failure) 0
      ⟨⟨⟨[], [], [], none⟩, 0⟩, true⟩).isFetching = false :=
  ⟨(fetch_flag_coalescing (fun _ => none) (fun _ => .failure) 0
      ⟨⟨⟨[], [], [], none⟩, 0⟩, true⟩).1 rfl,
   (fetch_flag_coalescing (fun _ => none) (fun _ => .failure) 0
      ⟨⟨⟨[], [], [], none⟩, 0⟩, true⟩).2⟩

/-- The genre lookup-or-create step touches only the genre table: news,
links and the checkpoint row are untouched. -/
theorem getOrCreateGenreId_preserves (cat : Category) (db : DB) :
    (getOrCreateGenreId cat db).2.news = db.news ∧
    (getOrCreateGenreId cat db).2.links = db.links ∧
    (getOrCreateGenreId cat db).2.lastPull = db.lastPull := by
  unfold getOrCreateGenreId
  rcases hf : db.genres.find? (fun g => g.name == lowerStr cat.name) with _ | g
  · simp only [hf]
    rcases hf2 : (db.genres ++ [⟨nextGenreId db, lowerStr cat.name⟩] :
        List GenreRow).find? (fun g => g.name == lowerStr cat.name) with _ | g2 <;>
      simp only [hf2] <;> refine ⟨?_, ?_, ?_⟩ <;> trivial
  · simp only [hf]
    refine ⟨?_, ?_, ?_⟩ <;> trivial

/-! ## C3: per-category rollback on any error -/

/-- C3: when any operation inside addNewsList errors — including a failure
while processing a single sub-item — the transaction is rolled back and the
error is rethrown: the committed news and link tables are exactly what they
were before the call, so none of the batch's article, sub-item or link
inserts survives. -/
theorem addNewsList_rollback_on_error (payload : NewsImput) (cat : Category)
    (sys : Sys) (e : DbErr) (h : (addNewsList payload cat sys).2 = .error e) :
    ((addNewsList payload cat sys).1).db.news = sys.db.news ∧
    ((addNewsList payload cat sys).1).db.links = sys.db.links := by
  have hg := getOrCreateGenreId_preserves cat sys.db
  have heq : addNewsList payload cat sys =
      match processItems (getOrCreateGenreId cat sys.db).1 payload.items
          { db := (getOrCreateGenreId cat sys.db).2, nextId := sys.nextId } with
      | .ok sys2 => (sys2, .ok ())
      | .error er =>
        ({ db := (getOrCreateGenreId cat sys.db).2, nextId := sys.nextId }, .error er) := rfl
  rcases hp : processItems (getOrCreateGenreId cat sys.db).1 payload.items
      { db := (getOrCreateGenreId cat sys.db).2, nextId := sys.nextId } with er | s2
  · rw [heq]
    simp only [hp]
    exact ⟨hg.1, hg.2.1⟩
  · rw [heq] at h
    simp only [hp] at h
    exact Except.noConfusion h

/-- Witness for addNewsList_rollback_on_error: a batch whose single item
lists itself as its own sub-item, so the link insert violates
chk_subnews_unique, the sub-item failure propagates, and the transaction
rolls back. -/
theorem addNewsList_rollback_on_error_witness :
    ((addNewsList
        ⟨"ok", [⟨1000, "t", "s", none, "https://u", "pub", none,
          some [⟨1000, "t", "s", none, "https://u", "pub", none⟩], true⟩]⟩
        Category.world ⟨⟨[], [], [], none⟩, 0⟩).1).db.news = [] ∧
    ((addNewsList
        ⟨"ok", [⟨1000, "t", "s", none, "https://u", "pub", none,
          some [⟨1000, "t", "s", none, "https://u", "pub", none⟩], true⟩]⟩
        Category.world ⟨⟨[], [], [], none⟩, 0⟩).1).db.links = [] :=
  addNewsList_rollback_on_error
    ⟨"ok", [⟨1000, "t", "s", none, "https://u", "pub", none,
      some [⟨1000, "t", "s", none, "https://u", "pub", none⟩], true⟩]⟩
    Category.world ⟨⟨[], [], [], none⟩, 0⟩ .checkViolation (by decide)

/-! ## Basic facts about the embedded SQL statements -/

theorem updRow_newsUrl (q : Nat) (b : Bool) (r : NewsRow) :
    (updRow q b r).newsUrl = r.newsUrl := by
  unfold updRow; split <;> rfl

theorem updRow_id (q : Nat) (b : Bool) (r : NewsRow) :
    (updRow q b r).id = r.id := by
  unfold updRow; split <;> rfl

theorem updRow_eq_self (q : Nat) (r : NewsRow) (h : r.hasSubnews = true) :
    updRow q true r = r := by
  unfold updRow; split
  · cases r; simp_all
  · rfl

theorem find?_append_of_some {α : Type} {l1 l2 : List α} {p : α → Bool} {a : α}
    (h : l1.find? p = some a) : (l1 ++ l2).find? p = some a := by
  rw [List.find?_append, h]; rfl

theorem find?_append_of_none {α : Type} {l1 l2 : List α} {p : α → Bool}
    (h : l1.find? p = none) : (l1 ++ l2).find? p = l2.find? p := by
  rw [List.find?_append, h]; rfl

theorem urlId_eq_some_iff {db : DB} {u : String} {p : Nat} :
    urlId db u = some p ↔ ∃ r, selectNewsByUrl u db = some r ∧ r.id = p := by
  unfold urlId; exact Option.map_eq_some'

theorem select_some_mem {db : DB} {u : String} {r : NewsRow}
    (h : selectNewsByUrl u db = some r) : r ∈ db.news :=
  List.mem_of_find?_eq_some h

theorem select_some_url {db : DB} {u : String} {r : NewsRow}
    (h : selectNewsByUrl u db = some r) : r.newsUrl = u := by
  have := List.find?_some h
  exact eq_of_beq this

theorem select_none_iff {db : DB} {u : String} :
    selectNewsByUrl u db = none ↔ ∀ r ∈ db.news, r.newsUrl ≠ u := by
  unfold selectNewsByUrl
  rw [List.find?_eq_none]
  constructor
  · intro h r hr he; exact h r hr (by rw [he]; exact beq_self_eq_true u)
  · intro h r hr hb; exact h r hr (eq_of_beq hb)

theorem urlId_append_of_some {db : DB} {rows : List NewsRow} {u : String} {p : Nat}
    (h : urlId db u = some p) :
    urlId { db with news := db.news ++ rows } u = some p := by
  rcases urlId_eq_some_iff.mp h with ⟨r, hs, hid⟩
  exact urlId_eq_some_iff.mpr ⟨r, find?_append_of_some hs, hid⟩

theorem urlId_update (db : DB) (q : Nat) (b : Bool) (u : String) :
    urlId (updateHasSubnews q b db) u = urlId db u := by
  unfold urlId selectNewsByUrl updateHasSubnews
  have hp : ((fun r : NewsRow => r.newsUrl == u) ∘ updRow q b) =
      (fun r : NewsRow => r.newsUrl == u) := by
    funext r; simp [Function.comp, updRow_newsUrl]
  rw [List.find?_map, hp, Option.map_map]
  congr 1
  funext r
  simp [Function.comp, updRow_id]

theorem rowTrueAt_append {db : DB} {rows : List NewsRow} {p : Nat}
    (h : rowTrueAt db p) (h2 : ∀ r ∈ rows, r.id = p → r.hasSubnews = true) :
    rowTrueAt { db with news := db.news ++ rows } p := by
  intro r hr hid
  rcases List.mem_append.mp hr with h3 | h3
  · exact h r h3 hid
  · exact h2 r h3 hid

theorem rowTrueAt_update_true {db : DB} (q p : Nat) (h : rowTrueAt db p) :
    rowTrueAt (updateHasSubnews q true db) p := by
  intro r hr hid
  rcases List.mem_map.mp hr with ⟨r0, hr0, rfl⟩
  rw [updRow_id] at hid
  unfold updRow
  split
  · rfl
  · exact h r0 hr0 hid

theorem rowTrueAt_update_self (db : DB) (q : Nat) :
    rowTrueAt (updateHasSubnews q true db) q := by
  intro r hr hid
  rcases List.mem_map.mp hr with ⟨r0, hr0, rfl⟩
  rw [updRow_id] at hid
  unfold updRow
  split
  · rfl
  · rename_i hne
    exact absurd (by rw [hid]; exact beq_self_eq_true q) hne

theorem insertLink_ok {p c : Nat} {db db1 : DB} (h : insertLink p c db = .ok db1) :
    p ≠ c ∧ db1.news = db.news ∧ db1.genres = db.genres ∧ db1.lastPull = db.lastPull ∧
    db1.links = db.links ++ [⟨p, c⟩] := by
  unfold insertLink at h
  by_cases h1 : (p == c) = true
  · rw [if_pos h1] at h; cases h
  · rw [if_neg h1] at h
    by_cases h2 : (db.news.any (fun r => r.id == p) && db.news.any (fun r => r.id == c)) = true
    · rw [if_pos h2] at h
      cases h
      exact ⟨fun he => h1 (by rw [he]; exact beq_self_eq_true c), rfl, rfl, rfl, rfl⟩
    · rw [if_neg h2] at h; cases h

theorem insertNewsStrict_ok {row : NewsRow} {db db1 : DB}
    (h : insertNewsStrict row db = .ok db1) :
    db1 = { db with news := db.news ++ [row] } := by
  unfold insertNewsStrict at h
  by_cases hc : (db.news.any (fun r => r.id == row.id || r.newsUrl == row.newsUrl)) = true
  · rw [if_pos hc] at h; cases h
  · rw [if_neg hc] at h; cases h; rfl

/-! ## The transaction-step relation -/

/-- What every statement of the engine preserves inside one transaction:
the identifier counter is monotone, genre and checkpoint tables are
untouched, URL-to-id bindings persist, fully-set has_subnews flags persist
for already-allocated ids, every new link row is non-self, and identifier
freshness is preserved. -/
def TxStep (s s1 : Sys) : Prop :=
  s.nextId ≤ s1.nextId ∧
  s1.db.genres = s.db.genres ∧
  s1.db.lastPull = s.db.lastPull ∧
  (∀ u p, urlId s.db u = some p → urlId s1.db u = some p) ∧
  (∀ p, p < s.nextId → rowTrueAt s.db p → rowTrueAt s1.db p) ∧
  (∀ l ∈ s1.db.links, l ∈ s.db.links ∨ l.newsId ≠ l.subnewsId) ∧
  (IdsBounded s → IdsBounded s1)

theorem TxStep.refl (s : Sys) : TxStep s s :=
  ⟨le_refl _, rfl, rfl, fun _ _ h => h, fun _ _ h => h, fun l hl => .inl hl, id⟩

theorem TxStep.trans {s1 s2 s3 : Sys} (h12 : TxStep s1 s2) (h23 : TxStep s2 s3) :
    TxStep s1 s3 := by
  obtain ⟨a1, b1, c1, d1, e1, f1, g1⟩ := h12
  obtain ⟨a2, b2, c2, d2, e2, f2, g2⟩ := h23
  refine ⟨le_trans a1 a2, b2.trans b1, c2.trans c1,
    fun u p h => d2 u p (d1 u p h),
    fun p hp h => e2 p (lt_of_lt_of_le hp a1) (e1 p hp h),
    fun l hl => ?_, fun hb => g2 (g1 hb)⟩
  rcases f2 l hl with h | h
  · rcases f1 l h with h3 | h3
    · exact .inl h3
    · exact .inr h3
  · exact .inr h

theorem txstep_insertNewsItem (sys : Sys) (i : NewsItem) (g : Nat) :
    TxStep sys ⟨insertNewsItem i g sys.nextId sys.db, sys.nextId + 1⟩ := by
  unfold insertNewsItem insertNewsIgnore
  by_cases hc : (sys.db.news.any (fun r =>
      r.id == (mkNewsRow i g sys.nextId).id || r.newsUrl == (mkNewsRow i g sys.nextId).newsUrl)) = true
  · rw [if_pos hc]
    refine ⟨Nat.le_succ _, rfl, rfl, fun _ _ h => h, fun _ _ h => h, fun l hl => .inl hl, ?_⟩
    intro hb r hr
    exact lt_trans (hb r hr) (Nat.lt_succ_self _)
  · rw [if_neg hc]
    refine ⟨Nat.le_succ _, rfl, rfl, fun u p h => urlId_append_of_some h, ?_, fun l hl => .inl hl, ?_⟩
    · intro p hp h
      refine rowTrueAt_append h ?_
      intro r hr hid
      rcases List.mem_singleton.mp hr with rfl
      exact absurd hid.symm (Nat.ne_of_lt hp)
    · intro hb r hr
      rcases List.mem_append.mp hr with h3 | h3
      · exact lt_trans (hb r h3) (Nat.lt_succ_self _)
      · rcases List.mem_singleton.mp h3 with rfl
        exact Nat.lt_succ_self _

theorem txstep_insertStrict {sys : Sys} {row : NewsRow} {db1 : DB}
    (hid : row.id = sys.nextId) (h : insertNewsStrict row sys.db = .ok db1) :
    TxStep sys ⟨db1, sys.nextId + 1⟩ := by
  rcases insertNewsStrict_ok h with rfl
  refine ⟨Nat.le_succ _, rfl, rfl, fun u p h => urlId_append_of_some h, ?_, fun l hl => .inl hl, ?_⟩
  · intro p hp h
    refine rowTrueAt_append h ?_
    intro r hr hid2
    rcases List.mem_singleton.mp hr with rfl
    rw [hid] at hid2
    exact absurd hid2.symm (Nat.ne_of_lt hp)
  · intro hb r hr
    rcases List.mem_append.mp hr with h3 | h3
    · exact lt_trans (hb r h3) (Nat.lt_succ_self _)
    · rcases List.mem_singleton.mp h3 with rfl
      rw [hid]
      exact Nat.lt_succ_self _

theorem txstep_update_true (sys : Sys) (q : Nat) :
    TxStep sys ⟨updateHasSubnews q true sys.db, sys.nextId⟩ := by
  refine ⟨le_refl _, rfl, rfl, fun u p h => by rw [urlId_update]; exact h,
    fun p _ h => rowTrueAt_update_true q p h, fun l hl => .inl hl, ?_⟩
  intro hb r hr
  rcases List.mem_map.mp hr with ⟨r0, hr0, rfl⟩
  rw [updRow_id]
  exact hb r0 hr0

theorem txstep_insertLink {sys : Sys} {p c : Nat} {db1 : DB}
    (h : insertLink p c sys.db = .ok db1) : TxStep sys ⟨db1, sys.nextId⟩ := by
  obtain ⟨hne, hnews, hgen, hlp, hlinks⟩ := insertLink_ok h
  refine ⟨le_refl _, hgen, hlp, fun u q hq => ?_, fun q hqlt hq => ?_, fun l hl => ?_, ?_⟩
  · unfold urlId selectNewsByUrl
    rw [hnews]
    exact hq
  · intro r hr
    rw [hnews] at hr
    exact hq r hr
  · rw [hlinks] at hl
    rcases List.mem_append.mp hl with h3 | h3
    · exact .inl h3
    · rcases List.mem_singleton.mp h3 with rfl
      exact .inr hne
  · intro hb r hr
    rw [hnews] at hr
    exact hb r hr

theorem insertSubnewsStep_txstep {g p : Nat} {sys sys1 : Sys} {e : SubNewsItem}
    (h : insertSubnewsStep g p sys e = .ok sys1) : TxStep sys sys1 := by
  simp only [insertSubnewsStep] at h
  rcases hs : selectNewsByUrl e.newsUrl sys.db with _ | row <;> simp only [hs] at h
  · rcases hins : insertNewsStrict (mkSubRow e g sys.nextId) sys.db with er | db1 <;>
      simp only [hins] at h
    · cases h
    · rcases hlink : insertLink p sys.nextId db1 with er2 | db2 <;>
        simp only [hlink, Except.map] at h
      · cases h
      · cases h
        exact TxStep.trans (txstep_insertStrict rfl hins)
          (@txstep_insertLink ⟨db1, sys.nextId + 1⟩ p sys.nextId db2 hlink)
  · rcases hlink : insertLink p row.id sys.db with er2 | db2 <;>
      simp only [hlink, Except.map] at h
    · cases h
    · cases h
      exact txstep_insertLink hlink

theorem insertSubnews_txstep {g p : Nat} : ∀ {l : List SubNewsItem} {sys sys1 : Sys},
    insertSubnews g p l sys = .ok sys1 → TxStep sys sys1 := by
  intro l
  induction l with
  | nil =>
    intro sys sys1 h
    simp only [insertSubnews] at h
    cases h
    exact TxStep.refl _
  | cons e rest ih =>
    intro sys sys1 h
    simp only [insertSubnews] at h
    rcases hstep : insertSubnewsStep g p sys e with er | s1 <;> simp only [hstep] at h
    · cases h
    · exact TxStep.trans (insertSubnewsStep_txstep hstep) (ih h)

theorem processItem_txstep {g : Nat} {sys : Sys} {i : NewsItem} {sys1 : Sys}
    (h : processItem g sys i = .ok sys1) : TxStep sys sys1 := by
  simp only [processItem] at h
  rcases hs : selectNewsByUrl i.newsUrl sys.db with _ | row <;> simp only [hs] at h <;>
    cases hb : i.hasSubnews <;> simp only [hb] at h
  · cases h
    exact txstep_insertNewsItem sys i g
  · rcases hsn : i.subnews with _ | l <;> simp only [hsn] at h
    · cases h
    · exact TxStep.trans (txstep_insertNewsItem sys i g) (insertSubnews_txstep h)
  · cases h
    exact TxStep.refl _
  · rcases hsn : i.subnews with _ | l <;> simp only [hsn] at h
    · cases h
    · exact TxStep.trans (txstep_update_true sys row.id) (insertSubnews_txstep h)

theorem processItems_txstep {g : Nat} : ∀ {items : List NewsItem} {sys sys1 : Sys},
    processItems g items sys = .ok sys1 → TxStep sys sys1 := by
  intro items
  induction items with
  | nil =>
    intro sys sys1 h
    simp only [processItems] at h
    cases h
    exact TxStep.refl _
  | cons i rest ih =>
    intro sys sys1 h
    simp only [processItems] at h
    rcases hstep : processItem g sys i with er | s1 <;> simp only [hstep] at h
    · cases h
    · exact TxStep.trans (processItem_txstep hstep) (ih h)

/-! ## Run postcondition: every processed item is settled -/

/-- After a successful run, a payload item is settled in the database: its
source URL is bound to a row id p; and when it declares sub-items, every
row with id p has the has_subnews flag set, the subnews array is present,
and each sub-item URL is bound to an id different from p (its link row was
accepted by the CHECK constraint). -/
def itemSettled (db : DB) (i : NewsItem) : Prop :=
  ∃ p, urlId db i.newsUrl = some p ∧
    (i.hasSubnews = true →
      rowTrueAt db p ∧ ∃ l, i.subnews = some l ∧
        ∀ e ∈ l, ∃ s, urlId db e.newsUrl = some s ∧ p ≠ s)

theorem urlId_hasRowId {db : DB} {u : String} {p : Nat} (h : urlId db u = some p) :
    hasRowId db p := by
  rcases urlId_eq_some_iff.mp h with ⟨r, hs, hid⟩
  exact ⟨r, select_some_mem hs, hid⟩

theorem settled_mono {s s1 : Sys} {i : NewsItem} (hb : IdsBounded s)
    (ht : TxStep s s1) (h : itemSettled s.db i) : itemSettled s1.db i := by
  obtain ⟨p, hbind, hsub⟩ := h
  obtain ⟨r, hr, hid⟩ := urlId_hasRowId hbind
  refine ⟨p, ht.2.2.2.1 _ _ hbind, fun htrue => ?_⟩
  obtain ⟨hrt, l, hl, hall⟩ := hsub htrue
  refine ⟨ht.2.2.2.2.1 p (hid ▸ hb r hr) hrt, l, hl, fun e he => ?_⟩
  obtain ⟨se, hse, hps⟩ := hall e he
  exact ⟨se, ht.2.2.2.1 _ _ hse, hps⟩

theorem settled_congr {db db1 : DB} {i : NewsItem} (hn : db1.news = db.news)
    (h : itemSettled db i) : itemSettled db1 i := by
  have hurl : ∀ u, urlId db1 u = urlId db u := by
    intro u; unfold urlId selectNewsByUrl; rw [hn]
  obtain ⟨p, hbind, hsub⟩ := h
  refine ⟨p, by rw [hurl]; exact hbind, fun htrue => ?_⟩
  obtain ⟨hrt, l, hl, hall⟩ := hsub htrue
  refine ⟨fun r hr => hrt r (hn ▸ hr), l, hl, fun e he => ?_⟩
  obtain ⟨se, hse, hps⟩ := hall e he
  exact ⟨se, by rw [hurl]; exact hse, hps⟩

theorem insertNewsItem_fresh {sys : Sys} {i : NewsItem} {g : Nat}
    (hb : IdsBounded sys) (hs : selectNewsByUrl i.newsUrl sys.db = none) :
    insertNewsItem i g sys.nextId sys.db =
      { sys.db with news := sys.db.news ++ [mkNewsRow i g sys.nextId] } := by
  unfold insertNewsItem insertNewsIgnore
  rw [if_neg]
  intro hany
  rcases List.any_eq_true.mp hany with ⟨r, hr, hor⟩
  simp [mkNewsRow] at hor
  rcases hor with h1 | h1
  · exact absurd h1 (Nat.ne_of_lt (hb r hr))
  · exact absurd h1 (select_none_iff.mp hs r hr)

theorem urlId_append_self {db : DB} {row : NewsRow} {u : String}
    (hnone : selectNewsByUrl u db = none) (hurl : row.newsUrl = u) :
    urlId { db with news := db.news ++ [row] } u = some row.id := by
  unfold urlId selectNewsByUrl
  unfold selectNewsByUrl at hnone
  rw [find?_append_of_none hnone]
  simp [List.find?, hurl]

theorem rowTrueAt_fresh {sys : Sys} (hb : IdsBounded sys) : rowTrueAt sys.db sys.nextId :=
  fun r hr hid => absurd hid (Nat.ne_of_lt (hb r hr))

theorem insertSubnewsStep_post {g p : Nat} {sys sys1 : Sys} {e : SubNewsItem}
    (h : insertSubnewsStep g p sys e = .ok sys1) :
    ∃ s, urlId sys1.db e.newsUrl = some s ∧ p ≠ s := by
  simp only [insertSubnewsStep] at h
  rcases hs : selectNewsByUrl e.newsUrl sys.db with _ | row <;> simp only [hs] at h
  · rcases hins : insertNewsStrict (mkSubRow e g sys.nextId) sys.db with er | db1 <;>
      simp only [hins] at h
    · cases h
    · rcases hlink : insertLink p sys.nextId db1 with er2 | db2 <;>
        simp only [hlink, Except.map] at h
      · cases h
      · cases h
        obtain ⟨hne, hnews, _, _, _⟩ := insertLink_ok hlink
        rcases insertNewsStrict_ok hins with rfl
        refine ⟨sys.nextId, ?_, hne⟩
        have : urlId { sys.db with news := sys.db.news ++ [mkSubRow e g sys.nextId] }
            e.newsUrl = some sys.nextId := urlId_append_self hs rfl
        unfold urlId selectNewsByUrl at this ⊢
        rw [hnews]
        exact this
  · rcases hlink : insertLink p row.id sys.db with er2 | db2 <;>
      simp only [hlink, Except.map] at h
    · cases h
    · cases h
      obtain ⟨hne, hnews, _, _, _⟩ := insertLink_ok hlink
      refine ⟨row.id, ?_, hne⟩
      have : urlId sys.db e.newsUrl = some row.id := urlId_eq_some_iff.mpr ⟨row, hs, rfl⟩
      unfold urlId selectNewsByUrl at this ⊢
      rw [hnews]
      exact this

theorem insertSubnews_post {g p : Nat} : ∀ {l : List SubNewsItem} {sys sys1 : Sys},
    insertSubnews g p l sys = .ok sys1 →
    ∀ e ∈ l, ∃ s, urlId sys1.db e.newsUrl = some s ∧ p ≠ s := by
  intro l
  induction l with
  | nil => intro sys sys1 _ e he; cases he
  | cons e0 rest ih =>
    intro sys sys1 h e he
    simp only [insertSubnews] at h
    rcases hstep : insertSubnewsStep g p sys e0 with er | s1 <;> simp only [hstep] at h
    · cases h
    · rcases List.mem_cons.mp he with rfl | he2
      · obtain ⟨s, hbind, hps⟩ := insertSubnewsStep_post hstep
        exact ⟨s, (insertSubnews_txstep h).2.2.2.1 _ _ hbind, hps⟩
      · exact ih h e he2

theorem processItem_settled {g : Nat} {sys : Sys} {i : NewsItem} {sys1 : Sys}
    (h : processItem g sys i = .ok sys1) (hb : IdsBounded sys) :
    itemSettled sys1.db i := by
  simp only [processItem] at h
  rcases hs : selectNewsByUrl i.newsUrl sys.db with _ | row <;> simp only [hs] at h <;>
    cases hsub : i.hasSubnews <;> simp only [hsub] at h
  · -- miss, no sub-items
    cases h
    refine ⟨sys.nextId, ?_, fun htrue => by simp [hsub] at htrue⟩
    rw [insertNewsItem_fresh hb hs]
    exact urlId_append_self hs rfl
  · -- miss, with sub-items
    rcases hsn : i.subnews with _ | l <;> simp only [hsn] at h
    · cases h
    · have hins := @insertNewsItem_fresh sys i g hb hs
      rw [hins] at h
      have hbind0 : urlId { sys.db with news := sys.db.news ++ [mkNewsRow i g sys.nextId] }
          i.newsUrl = some sys.nextId := urlId_append_self hs rfl
      have htx := insertSubnews_txstep h
      have hbmid : IdsBounded ⟨{ sys.db with news := sys.db.news ++ [mkNewsRow i g sys.nextId] },
          sys.nextId + 1⟩ := by
        intro r hr
        rcases List.mem_append.mp hr with h3 | h3
        · exact lt_trans (hb r h3) (Nat.lt_succ_self _)
        · rcases List.mem_singleton.mp h3 with rfl
          exact Nat.lt_succ_self _
      refine ⟨sys.nextId, htx.2.2.2.1 _ _ hbind0, fun _ => ?_⟩
      have hrt0 : rowTrueAt { sys.db with news := sys.db.news ++ [mkNewsRow i g sys.nextId] }
          sys.nextId := by
        refine rowTrueAt_append (rowTrueAt_fresh hb) ?_
        intro r hr _
        rcases List.mem_singleton.mp hr with rfl
        simp [mkNewsRow, hsub]
      refine ⟨htx.2.2.2.2.1 sys.nextId (Nat.lt_succ_self _) hrt0, l, hsn, ?_⟩
      exact insertSubnews_post h
  · -- found, no sub-items
    cases h
    exact ⟨row.id, urlId_eq_some_iff.mpr ⟨row, hs, rfl⟩,
      fun htrue => by simp [hsub] at htrue⟩
  · -- found, with sub-items
    rcases hsn : i.subnews with _ | l <;> simp only [hsn] at h
    · cases h
    · have htx := insertSubnews_txstep h
      have hbind0 : urlId (updateHasSubnews row.id true sys.db) i.newsUrl = some row.id := by
        rw [urlId_update]
        exact urlId_eq_some_iff.mpr ⟨row, hs, rfl⟩
      refine ⟨row.id, htx.2.2.2.1 _ _ hbind0, fun _ => ?_⟩
      have hlt : row.id < sys.nextId := hb row (select_some_mem hs)
      refine ⟨htx.2.2.2.2.1 row.id hlt (rowTrueAt_update_self sys.db row.id), l, hsn, ?_⟩
      exact insertSubnews_post h

theorem processItems_settled {g : Nat} : ∀ {items : List NewsItem} {sys sys1 : Sys},
    processItems g items sys = .ok sys1 → IdsBounded sys →
    ∀ i ∈ items, itemSettled sys1.db i := by
  intro items
  induction items with
  | nil => intro sys sys1 _ _ i hi; cases hi
  | cons i0 rest ih =>
    intro sys sys1 h hb i hi
    simp only [processItems] at h
    rcases hstep : processItem g sys i0 with er | s1 <;> simp only [hstep] at h
    · cases h
    · rcases List.mem_cons.mp hi with rfl | hi2
      · exact settled_mono ((processItem_txstep hstep).2.2.2.2.2.2 hb)
          (processItems_txstep h) (processItem_settled hstep hb)
      · exact ih h ((processItem_txstep hstep).2.2.2.2.2.2 hb) i hi2

/-! ## Replay: processing a settled payload changes no news rows -/

theorem updateHasSubnews_noop {db : DB} {p : Nat} (h : rowTrueAt db p) :
    updateHasSubnews p true db = db := by
  unfold updateHasSubnews
  have h3 : db.news.map (updRow p true) = db.news := by
    have h2 : ∀ r ∈ db.news, updRow p true r = id r := by
      intro r hr
      by_cases hid : (r.id == p) = true
      · exact updRow_eq_self p r (h r hr (eq_of_beq hid))
      · unfold updRow; rw [if_neg hid]; rfl
    rw [List.map_congr_left h2, List.map_id]
  rw [h3]

theorem insertSubnewsStep_replay {g p : Nat} {sys : Sys} {e : SubNewsItem} {s : Nat}
    (hbind : urlId sys.db e.newsUrl = some s) (hps : p ≠ s) (hp : hasRowId sys.db p) :
    insertSubnewsStep g p sys e =
      .ok ⟨{ sys.db with links := sys.db.links ++ [⟨p, s⟩] }, sys.nextId⟩ := by
  rcases urlId_eq_some_iff.mp hbind with ⟨row, hsel, hid⟩
  simp only [insertSubnewsStep, hsel]
  have ha1 : (sys.db.news.any (fun r => r.id == p)) = true := by
    rw [List.any_eq_true]
    rcases hp with ⟨r0, hr0, hr0id⟩
    exact ⟨r0, hr0, by rw [hr0id]; exact beq_self_eq_true p⟩
  have ha2 : (sys.db.news.any (fun r => r.id == row.id)) = true := by
    rw [List.any_eq_true]
    exact ⟨row, select_some_mem hsel, beq_self_eq_true row.id⟩
  have hlink : insertLink p row.id sys.db =
      .ok { sys.db with links := sys.db.links ++ [⟨p, row.id⟩] } := by
    unfold insertLink
    rw [if_neg, ha1, ha2, if_pos (show (true && true) = true from rfl)]
    intro hbeq
    exact hps (hid ▸ eq_of_beq hbeq)
  rw [hlink]
  simp only [Except.map]
  rw [hid]

theorem insertSubnews_replay {g p : Nat} : ∀ {l : List SubNewsItem} {sys : Sys},
    (∀ e ∈ l, ∃ s, urlId sys.db e.newsUrl = some s ∧ p ≠ s) →
    hasRowId sys.db p →
    ∃ sys1, insertSubnews g p l sys = .ok sys1 ∧ sys1.db.news = sys.db.news ∧
      sys1.nextId = sys.nextId ∧ sys1.db.genres = sys.db.genres ∧
      sys1.db.lastPull = sys.db.lastPull ∧
      sys1.db.links = sys.db.links ++
        l.map (fun e => (⟨p, (urlId sys.db e.newsUrl).getD 0⟩ : LinkRow)) := by
  intro l
  induction l with
  | nil =>
    intro sys _ _
    exact ⟨sys, rfl, rfl, rfl, rfl, rfl, by simp⟩
  | cons e rest ih =>
    intro sys hall hp
    obtain ⟨s, hbind, hps⟩ := hall e (List.mem_cons_self e rest)
    have hstep := insertSubnewsStep_replay (g := g) hbind hps hp
    have hall2 : ∀ e2 ∈ rest, ∃ s2,
        urlId (⟨{ sys.db with links := sys.db.links ++ [⟨p, s⟩] }, sys.nextId⟩ : Sys).db
          e2.newsUrl = some s2 ∧ p ≠ s2 :=
      fun e2 he2 => hall e2 (List.mem_cons_of_mem _ he2)
    have hp2 : hasRowId (⟨{ sys.db with links := sys.db.links ++ [⟨p, s⟩] },
        sys.nextId⟩ : Sys).db p := hp
    obtain ⟨sys1, hrun, hn, hni, hg2, hlp2, hlinks⟩ := ih hall2 hp2
    refine ⟨sys1, ?_, hn, hni, hg2, hlp2, ?_⟩
    · simp only [insertSubnews, hstep]
      exact hrun
    · rw [hlinks]
      simp only [List.map_cons, hbind, Option.getD_some]
      rw [List.append_assoc]
      rfl

theorem processItem_replay {g : Nat} {sys : Sys} {i : NewsItem}
    (hset : itemSettled sys.db i) :
    ∃ sys1, processItem g sys i = .ok sys1 ∧ sys1.db.news = sys.db.news ∧
      sys1.nextId = sys.nextId ∧ sys1.db.genres = sys.db.genres ∧
      sys1.db.lastPull = sys.db.lastPull := by
  obtain ⟨p, hbind, hsub⟩ := hset
  rcases urlId_eq_some_iff.mp hbind with ⟨row, hsel, hid⟩
  simp only [processItem, hsel]
  cases hb : i.hasSubnews
  · exact ⟨sys, rfl, rfl, rfl, rfl, rfl⟩
  · obtain ⟨hrt, l, hsn, hall⟩ := hsub hb
    simp only [hsn]
    have hnoop : updateHasSubnews row.id true sys.db = sys.db :=
      updateHasSubnews_noop (by rw [hid]; exact hrt)
    rw [hnoop]
    have hall2 : ∀ e ∈ l, ∃ s, urlId sys.db e.newsUrl = some s ∧ row.id ≠ s := by
      intro e he
      obtain ⟨s, hse, hps⟩ := hall e he
      exact ⟨s, hse, by rw [hid]; exact hps⟩
    obtain ⟨sys1, hrun, hn, hni, hg2, hlp2, _⟩ :=
      insertSubnews_replay hall2 ⟨row, select_some_mem hsel, rfl⟩
    exact ⟨sys1, hrun, hn, hni, hg2, hlp2⟩

theorem processItems_replay {g : Nat} : ∀ {items : List NewsItem} {sys : Sys},
    (∀ i ∈ items, itemSettled sys.db i) →
    ∃ sys1, processItems g items sys = .ok sys1 ∧ sys1.db.news = sys.db.news ∧
      sys1.nextId = sys.nextId ∧ sys1.db.genres = sys.db.genres ∧
      sys1.db.lastPull = sys.db.lastPull := by
  intro items
  induction items with
  | nil =>
    intro sys _
    exact ⟨sys, rfl, rfl, rfl, rfl, rfl⟩
  | cons i0 rest ih =>
    intro sys hall
    obtain ⟨s1, hrun1, hn1, hni1, hg1, hlp1⟩ :=
      processItem_replay (g := g) (hall i0 (List.mem_cons_self i0 rest))
    have hall2 : ∀ i ∈ rest, itemSettled s1.db i :=
      fun i hi => settled_congr hn1 (hall i (List.mem_cons_of_mem _ hi))
    obtain ⟨sys1, hrun2, hn2, hni2, hg2, hlp2⟩ := ih hall2
    refine ⟨sys1, ?_, hn2.trans hn1, hni2.trans hni1, hg2.trans hg1, hlp2.trans hlp1⟩
    simp only [processItems, hrun1]
    exact hrun2

/-! ## C1: ingestion is idempotent on the news table -/

/-- C1: a second run of addNewsList with the identical payload, from the
state a successful first run committed, commits successfully and leaves
the news table exactly as the first run left it: every top-level and
sub-item source URL already has a row, so no second row is created for any
source URL and the row count is unchanged.  (IdsBounded embeds the
freshness of generated UUIDs.) -/
theorem addNewsList_idempotent (payload : NewsImput) (cat : Category) (sys sys1 : Sys)
    (hb : IdsBounded sys) (h1 : addNewsList payload cat sys = (sys1, .ok ())) :
    (addNewsList payload cat sys1).2 = .ok () ∧
    ((addNewsList payload cat sys1).1).db.news = sys1.db.news := by
  have heq1 : addNewsList payload cat sys =
      match processItems (getOrCreateGenreId cat sys.db).1 payload.items
          ⟨(getOrCreateGenreId cat sys.db).2, sys.nextId⟩ with
      | .ok s2 => (s2, .ok ())
      | .error er =>
        (⟨(getOrCreateGenreId cat sys.db).2, sys.nextId⟩, .error er) := rfl
  rcases hp1 : processItems (getOrCreateGenreId cat sys.db).1 payload.items
      ⟨(getOrCreateGenreId cat sys.db).2, sys.nextId⟩ with er | s2
  · rw [heq1] at h1
    simp only [hp1] at h1
    have h2 := congrArg Prod.snd h1
    simp at h2
  · rw [heq1] at h1
    simp only [hp1] at h1
    have hs2 : s2 = sys1 := congrArg Prod.fst h1
    subst hs2
    have hgp := getOrCreateGenreId_preserves cat sys.db
    have hbbase : IdsBounded ⟨(getOrCreateGenreId cat sys.db).2, sys.nextId⟩ := by
      intro r hr
      rw [hgp.1] at hr
      exact hb r hr
    have hsettled := processItems_settled hp1 hbbase
    have hgp2 := getOrCreateGenreId_preserves cat s2.db
    have hsettled2 : ∀ i ∈ payload.items,
        itemSettled (getOrCreateGenreId cat s2.db).2 i :=
      fun i hi => settled_congr hgp2.1 (hsettled i hi)
    obtain ⟨s3, hrun2, hn2, _, _, _⟩ :=
      @processItems_replay (getOrCreateGenreId cat s2.db).1 payload.items
        ⟨(getOrCreateGenreId cat s2.db).2, s2.nextId⟩ hsettled2
    have heq2 : addNewsList payload cat s2 =
        match processItems (getOrCreateGenreId cat s2.db).1 payload.items
            ⟨(getOrCreateGenreId cat s2.db).2, s2.nextId⟩ with
        | .ok s4 => (s4, .ok ())
        | .error er =>
          (⟨(getOrCreateGenreId cat s2.db).2, s2.nextId⟩, .error er) := rfl
    rw [heq2]
    simp only [hrun2]
    exact ⟨by trivial, hn2.trans hgp2.1⟩

/-- Witness for addNewsList_idempotent: a one-item batch run from the
empty database, then run again from the committed state. -/
theorem addNewsList_idempotent_witness :
    (addNewsList ⟨"ok", [⟨1500, "t", "s", none, "https://n1", "pub", none, none, false⟩]⟩
      Category.health
      ((addNewsList ⟨"ok", [⟨1500, "t", "s", none, "https://n1", "pub", none, none, false⟩]⟩
        Category.health ⟨⟨[], [], [], none⟩, 0⟩).1)).2 = .ok () ∧
    ((addNewsList ⟨"ok", [⟨1500, "t", "s", none, "https://n1", "pub", none, none, false⟩]⟩
      Category.health
      ((addNewsList ⟨"ok", [⟨1500, "t", "s", none, "https://n1", "pub", none, none, false⟩]⟩
        Category.health ⟨⟨[], [], [], none⟩, 0⟩).1)).1).db.news =
      ((addNewsList ⟨"ok", [⟨1500, "t", "s", none, "https://n1", "pub", none, none, false⟩]⟩
        Category.health ⟨⟨[], [], [], none⟩, 0⟩).1).db.news :=
  addNewsList_idempotent
    ⟨"ok", [⟨1500, "t", "s", none, "https://n1", "pub", none, none, false⟩]⟩
    Category.health ⟨⟨[], [], [], none⟩, 0⟩
    ((addNewsList ⟨"ok", [⟨1500, "t", "s", none, "https://n1", "pub", none, none, false⟩]⟩
      Category.health ⟨⟨[], [], [], none⟩, 0⟩).1)
    (by decide) (by decide)

/-! ## C9: no article is ever linked to itself -/

/-- C9: the Dedup/Upsert Engine never commits a self link.  Starting from
any state whose link table has no self loops, after addNewsList — whether
it commits or rolls back — the link table still has none: a sub-item whose
source URL resolves to its parent's own row makes the link insert violate
chk_subnews_unique, which aborts and rolls back the batch instead of
storing the row. -/
theorem no_self_links_invariant (payload : NewsImput) (cat : Category) (sys : Sys)
    (h : NoSelfLinks sys.db) :
    NoSelfLinks ((addNewsList payload cat sys).1).db := by
  have hg := getOrCreateGenreId_preserves cat sys.db
  have heq : addNewsList payload cat sys =
      match processItems (getOrCreateGenreId cat sys.db).1 payload.items
          { db := (getOrCreateGenreId cat sys.db).2, nextId := sys.nextId } with
      | .ok sys2 => (sys2, .ok ())
      | .error er =>
        ({ db := (getOrCreateGenreId cat sys.db).2, nextId := sys.nextId }, .error er) := rfl
  have hbase : NoSelfLinks (getOrCreateGenreId cat sys.db).2 := by
    intro l hl
    exact h l (hg.2.1 ▸ hl)
  rcases hp : processItems (getOrCreateGenreId cat sys.db).1 payload.items
      { db := (getOrCreateGenreId cat sys.db).2, nextId := sys.nextId } with er | s2
  · rw [heq]
    simp only [hp]
    exact hbase
  · rw [heq]
    simp only [hp]
    intro l hl
    rcases (processItems_txstep hp).2.2.2.2.2.1 l hl with h3 | h3
    · exact hbase l h3
    · exact h3

/-- Witness for no_self_links_invariant: the self-linking batch of the
rollback witness, run from an empty table. -/
theorem no_self_links_invariant_witness :
    NoSelfLinks ((addNewsList
        ⟨"ok", [⟨1000, "a", "s", none, "https://w", "pub", none,
          some [⟨1000, "a", "s", none, "https://w", "pub", none⟩], true⟩]⟩
        Category.science ⟨⟨[], [], [], none⟩, 0⟩).1).db :=
  no_self_links_invariant
    ⟨"ok", [⟨1000, "a", "s", none, "https://w", "pub", none,
      some [⟨1000, "a", "s", none, "https://w", "pub", none⟩], true⟩]⟩
    Category.science ⟨⟨[], [], [], none⟩, 0⟩ (by decide)

/-! ## Orchestrator-level lemmas -/

theorem present_iff_urlId {db : DB} {u : String} :
    present db u ↔ ∃ p, urlId db u = some p := by
  constructor
  · rintro ⟨r, hr, hu⟩
    have hsome : (db.news.find? (fun x => x.newsUrl == u)).isSome := by
      rw [List.find?_isSome]
      exact ⟨r, hr, by rw [hu]; exact beq_self_eq_true u⟩
    rcases Option.isSome_iff_exists.mp hsome with ⟨row, hrow⟩
    exact ⟨row.id, urlId_eq_some_iff.mpr ⟨row, hrow, rfl⟩⟩
  · rintro ⟨p, h⟩
    rcases urlId_eq_some_iff.mp h with ⟨row, hs, _⟩
    exact ⟨row, select_some_mem hs, select_some_url hs⟩

/-- Extracting the successful transaction from a committed addNewsList. -/
theorem addNewsList_ok_processItems {payload : NewsImput} {cat : Category}
    {sys sys2 : Sys} (h : addNewsList payload cat sys = (sys2, .ok ())) :
    processItems (getOrCreateGenreId cat sys.db).1 payload.items
      ⟨(getOrCreateGenreId cat sys.db).2, sys.nextId⟩ = .ok sys2 := by
  have heq : addNewsList payload cat sys =
      match processItems (getOrCreateGenreId cat sys.db).1 payload.items
          ⟨(getOrCreateGenreId cat sys.db).2, sys.nextId⟩ with
      | .ok s2 => (s2, .ok ())
      | .error er =>
        (⟨(getOrCreateGenreId cat sys.db).2, sys.nextId⟩, .error er) := rfl
  rcases hp : processItems (getOrCreateGenreId cat sys.db).1 payload.items
      ⟨(getOrCreateGenreId cat sys.db).2, sys.nextId⟩ with er | s2
  · rw [heq] at h
    simp only [hp] at h
    have h2 := congrArg Prod.snd h
    simp at h2
  · rw [heq] at h
    simp only [hp] at h
    have h2 : s2 = sys2 := congrArg Prod.fst h
    exact congrArg Except.ok h2

/-- Whatever its outcome, addNewsList preserves the checkpoint row, keeps
every present source URL present, and preserves identifier freshness. -/
theorem addNewsList_preserves (payload : NewsImput) (cat : Category) (sys : Sys) :
    ((addNewsList payload cat sys).1).db.lastPull = sys.db.lastPull ∧
    (∀ u, present sys.db u → present ((addNewsList payload cat sys).1).db u) ∧
    (IdsBounded sys → IdsBounded (addNewsList payload cat sys).1) := by
  have hgp := getOrCreateGenreId_preserves cat sys.db
  have heq : addNewsList payload cat sys =
      match processItems (getOrCreateGenreId cat sys.db).1 payload.items
          ⟨(getOrCreateGenreId cat sys.db).2, sys.nextId⟩ with
      | .ok s2 => (s2, .ok ())
      | .error er =>
        (⟨(getOrCreateGenreId cat sys.db).2, sys.nextId⟩, .error er) := rfl
  have hbase : ∀ u, present sys.db u →
      present (⟨(getOrCreateGenreId cat sys.db).2, sys.nextId⟩ : Sys).db u := by
    rintro u ⟨r, hr, hu⟩
    exact ⟨r, by rw [hgp.1]; exact hr, hu⟩
  have hbIb : IdsBounded sys →
      IdsBounded (⟨(getOrCreateGenreId cat sys.db).2, sys.nextId⟩ : Sys) := by
    intro hb r hr
    rw [hgp.1] at hr
    exact hb r hr
  rcases hp : processItems (getOrCreateGenreId cat sys.db).1 payload.items
      ⟨(getOrCreateGenreId cat sys.db).2, sys.nextId⟩ with er | s2
  · rw [heq]
    simp only [hp]
    exact ⟨hgp.2.2, hbase, hbIb⟩
  · rw [heq]
    simp only [hp]
    have htx := processItems_txstep hp
    refine ⟨htx.2.2.1.trans hgp.2.2, fun u hu => ?_, fun hb => htx.2.2.2.2.2.2 (hbIb hb)⟩
    rcases present_iff_urlId.mp (hbase u hu) with ⟨p, hbind⟩
    exact present_iff_urlId.mpr ⟨p, htx.2.2.2.1 u p hbind⟩

/-- A committed batch leaves every top-level source URL of the original
payload present (the engine receives the payload after thumbnail
resolution, which does not change source URLs). -/
theorem addNewsList_ok_present {payload : NewsImput} {cat : Category}
    {sys sys2 : Sys} (hb : IdsBounded sys)
    (h : addNewsList payload cat sys = (sys2, .ok ())) :
    ∀ i ∈ payload.items, present sys2.db i.newsUrl := by
  intro i hi
  have hp := addNewsList_ok_processItems h
  have hgp := getOrCreateGenreId_preserves cat sys.db
  have hbbase : IdsBounded (⟨(getOrCreateGenreId cat sys.db).2, sys.nextId⟩ : Sys) := by
    intro r hr
    rw [hgp.1] at hr
    exact hb r hr
  obtain ⟨p, hbind, _⟩ := processItems_settled hp hbbase i hi
  exact present_iff_urlId.mpr ⟨p, hbind⟩

theorem saveUrlSub_newsUrl (http : GetRequest → HttpOutcome) (e : SubNewsItem) :
    (saveUrlSub http e).newsUrl = e.newsUrl := rfl

theorem saveUrlItem_newsUrl (http : GetRequest → HttpOutcome) (i : NewsItem) :
    (saveUrlItem http i).newsUrl = i.newsUrl := by
  unfold saveUrlItem
  dsimp only
  split
  · split <;> rfl
  · rfl

theorem runCats_facts (api : Category → Option NewsImput)
    (http : GetRequest → HttpOutcome) :
    ∀ (cats : List Category) (sys : Sys),
    ((runCats api http cats sys).1.db.lastPull = sys.db.lastPull) ∧
    (∀ u, present sys.db u → present (runCats api http cats sys).1.db u) ∧
    (IdsBounded sys → IdsBounded (runCats api http cats sys).1) := by
  intro cats
  induction cats with
  | nil => exact fun sys => ⟨rfl, fun _ h => h, id⟩
  | cons c0 rest ih =>
    intro sys
    rcases hapi : api c0 with _ | payload
    · simp only [runCats, hapi]
      refine ⟨?_, ?_, ?_⟩
      · trivial
      · first
        | trivial
        | exact fun _ h => h
      · first
        | trivial
        | exact id
    · rcases hadd : addNewsList (saveUrlImage http payload) c0 sys with ⟨sys1, res⟩
      have hpres := addNewsList_preserves (saveUrlImage http payload) c0 sys
      rw [hadd] at hpres
      cases res with
      | error e =>
        simp only [runCats, hapi, hadd]
        exact ⟨hpres.1, hpres.2.1, hpres.2.2⟩
      | ok u =>
        cases u
        simp only [runCats, hapi, hadd]
        have hr := ih sys1
        exact ⟨hr.1.trans hpres.1, fun v hv => hr.2.1 v (hpres.2.1 v hv),
          fun hb => hr.2.2 (hpres.2.2 hb)⟩

theorem checkFetchDate_error_cat {lp : Option Int} {now : Int} {e : RunErr}
    (h : checkFetchDate lp now = .error e) : e.cat = none := by
  unfold checkFetchDate at h
  rcases lp with _ | t
  · cases h; rfl
  · dsimp only at h
    split at h
    · cases h; rfl
    · cases h

theorem checkFetchDate_ok_some {lp : Option Int} {now : Int}
    (h : checkFetchDate lp now = .ok ()) : ∃ t, lp = some t := by
  rcases lp with _ | t
  · cases h
  · exact ⟨t, rfl⟩

/-- When the category loop fails, the enumeration splits at the failing
category and every earlier category's payload is fully present in the
final committed state. -/
theorem runCats_fail (api : Category → Option NewsImput)
    (http : GetRequest → HttpOutcome) :
    ∀ {cats : List Category} {sys : Sys} {er : RunErr} {c : Category},
    (runCats api http cats sys).2.1 = some er → er.cat = some c → IdsBounded sys →
    ∃ pre post, cats = pre ++ c :: post ∧
      ∀ c2 ∈ pre, ∀ pl, api c2 = some pl →
        ∀ i ∈ pl.items, present (runCats api http cats sys).1.db i.newsUrl := by
  intro cats
  induction cats with
  | nil =>
    intro sys er c h _ _
    cases h
  | cons c0 rest ih =>
    intro sys er c h hc hb
    rcases hapi : api c0 with _ | payload
    · simp only [runCats, hapi] at h
      cases h
      simp only [RunErr.cat] at hc
      cases hc
      exact ⟨[], rest, rfl, fun c2 hc2 => by cases hc2⟩
    · rcases hadd : addNewsList (saveUrlImage http payload) c0 sys with ⟨sys1, res⟩
      cases res with
      | error e =>
        simp only [runCats, hapi, hadd] at h
        cases h
        simp only [RunErr.cat] at hc
        cases hc
        exact ⟨[], rest, rfl, fun c2 hc2 => by cases hc2⟩
      | ok u =>
        cases u
        simp only [runCats, hapi, hadd] at h ⊢
        have hpres := addNewsList_preserves (saveUrlImage http payload) c0 sys
        rw [hadd] at hpres
        have hb1 : IdsBounded sys1 := hpres.2.2 hb
        obtain ⟨pre2, post2, hsplit, hall⟩ := ih h hc hb1
        refine ⟨c0 :: pre2, post2, by rw [hsplit]; rfl, ?_⟩
        intro c2 hc2 pl hpl i hi
        rcases List.mem_cons.mp hc2 with rfl | hc3
        · rw [hapi] at hpl
          cases hpl
          have hmem : saveUrlItem http i ∈ (saveUrlImage http payload).items :=
            List.mem_map_of_mem _ hi
          have hpresent : present sys1.db i.newsUrl := by
            have := addNewsList_ok_present hb hadd (saveUrlItem http i) hmem
            rw [saveUrlItem_newsUrl] at this
            exact this
          exact (runCats_facts api http rest sys1).2.1 _ hpresent
        · exact hall c2 hc3 pl hpl i hi

/-! ## C5: checkpoint update and per-category atomicity -/

/-- C5: over the fixed category enumeration, the checkpoint is set to now
exactly when the run responds 200 (gate passed and every category fetched,
resolved and persisted without error); any failure is reported to the
trigger's invoker as a 500 whose error names the cause, the checkpoint is
left at its previous value, and every category that committed before the
failing one stays committed — all items of its payload remain present in
the final state (no cross-category rollback). -/
theorem fetchApi_checkpoint_semantics (api : Category → Option NewsImput)
    (http : GetRequest → HttpOutcome) (now : Int) (sys : Sys)
    (hb : IdsBounded sys) (hnow : sys.db.lastPull ≠ some now) :
    (((fetchApi api http now sys).2).db.lastPull = some now ↔
      ∃ n, (fetchApi api http now sys).1 = .ok200 n) ∧
    (∀ e, (fetchApi api http now sys).1 = .err500 e →
      ((fetchApi api http now sys).2).db.lastPull = sys.db.lastPull) ∧
    (∀ e c, (fetchApi api http now sys).1 = .err500 e → e.cat = some c →
      ∃ pre post, Category.values = pre ++ c :: post ∧
        ∀ c2 ∈ pre, ∀ pl, api c2 = some pl →
          ∀ i ∈ pl.items, present ((fetchApi api http now sys).2).db i.newsUrl) := by
  rcases hgate : checkFetchDate sys.db.lastPull now with e0 | u
  · have hres : fetchApi api http now sys = (.err500 e0, sys) := by
      simp only [fetchApi, hgate]
    rw [hres]
    refine ⟨?_, ?_, ?_⟩
    · constructor
      · intro hlp
        exact absurd hlp hnow
      · rintro ⟨n, hn⟩
        cases hn
    · intro e _
      rfl
    · intro e c he hc
      cases he
      rw [checkFetchDate_error_cat hgate] at hc
      cases hc
  · cases u
    rcases herr : (runCats api http Category.values sys).2.1 with _ | e1
    · obtain ⟨t, hlpt⟩ := checkFetchDate_ok_some hgate
      have hlp1 : (runCats api http Category.values sys).1.db.lastPull = some t := by
        rw [(runCats_facts api http Category.values sys).1, hlpt]
      have hupd : updateFetchDate now (runCats api http Category.values sys).1 =
          .ok ⟨{ (runCats api http Category.values sys).1.db with lastPull := some now },
            (runCats api http Category.values sys).1.nextId⟩ := by
        simp only [updateFetchDate, hlp1]
      have hres : fetchApi api http now sys =
          (.ok200 (runCats api http Category.values sys).2.2,
            ⟨{ (runCats api http Category.values sys).1.db with lastPull := some now },
              (runCats api http Category.values sys).1.nextId⟩) := by
        simp only [fetchApi, hgate, herr, hupd]
      rw [hres]
      refine ⟨⟨fun _ => ⟨_, rfl⟩, fun _ => rfl⟩, ?_, ?_⟩
      · intro e he
        cases he
      · intro e c he _
        cases he
    · have hres : fetchApi api http now sys =
          (.err500 e1, (runCats api http Category.values sys).1) := by
        simp only [fetchApi, hgate, herr]
      rw [hres]
      have hlp := (runCats_facts api http Category.values sys).1
      refine ⟨?_, ?_, ?_⟩
      · constructor
        · intro h2
          rw [hlp] at h2
          exact absurd h2 hnow
        · rintro ⟨n, hn⟩
          cases hn
      · intro e he
        cases he
        exact hlp
      · intro e c he hc
        cases he
        exact runCats_fail api http herr hc hb

/-- Witness for fetchApi_checkpoint_semantics: all seven categories return
an empty validated batch, the gate is exactly at the 10-day boundary, and
the run responds 200 with the checkpoint moved to now. -/
theorem fetchApi_checkpoint_semantics_witness :
    (((fetchApi (fun _ => some ⟨"ok", []⟩) (fun _ => .failure) 864000000
        ⟨⟨[], [], [], some 0⟩, 0⟩).2).db.lastPull = some 864000000 ↔
      ∃ n, (fetchApi (fun _ => some ⟨"ok", []⟩) (fun _ => .failure) 864000000
        ⟨⟨[], [], [], some 0⟩, 0⟩).1 = .ok200 n) ∧
    (∀ e, (fetchApi (fun _ => some ⟨"ok", []⟩) (fun _ => .failure) 864000000
        ⟨⟨[], [], [], some 0⟩, 0⟩).1 = .err500 e →
      ((fetchApi (fun _ => some ⟨"ok", []⟩) (fun _ => .failure) 864000000
        ⟨⟨[], [], [], some 0⟩, 0⟩).2).db.lastPull = some 0) ∧
    (∀ e c, (fetchApi (fun _ => some ⟨"ok", []⟩) (fun _ => .failure) 864000000
        ⟨⟨[], [], [], some 0⟩, 0⟩).1 = .err500 e → e.cat = some c →
      ∃ pre post, Category.values = pre ++ c :: post ∧
        ∀ c2 ∈ pre, ∀ pl, (fun _ : Category => some (⟨"ok", []⟩ : NewsImput)) c2 = some pl →
          ∀ i ∈ pl.items, present ((fetchApi (fun _ => some ⟨"ok", []⟩)
            (fun _ => .failure) 864000000 ⟨⟨[], [], [], some 0⟩, 0⟩).2).db i.newsUrl) :=
  fetchApi_checkpoint_semantics (fun _ => some ⟨"ok", []⟩) (fun _ => .failure)
    864000000 ⟨⟨[], [], [], some 0⟩, 0⟩ (by decide) (by decide)

/-! ## Counting rows per source URL -/

theorem urlId_congr {db db1 : DB} (h : db1.news = db.news) (u : String) :
    urlId db1 u = urlId db u := by
  unfold urlId selectNewsByUrl
  rw [h]

theorem UrlCount_congr {db db1 : DB} (h : db1.news = db.news) (u : String) :
    UrlCount db1 u = UrlCount db u := by
  unfold UrlCount
  rw [h]

theorem UrlCount_update (db : DB) (q : Nat) (b : Bool) (u : String) :
    UrlCount (updateHasSubnews q b db) u = UrlCount db u := by
  unfold UrlCount updateHasSubnews
  rw [List.countP_map]
  congr 1
  funext r
  simp [Function.comp, updRow_newsUrl]

theorem UrlCount_append_one (db : DB) (row : NewsRow) (u : String) :
    UrlCount { db with news := db.news ++ [row] } u =
      UrlCount db u + (if row.newsUrl == u then 1 else 0) := by
  unfold UrlCount
  rw [List.countP_append]
  congr 1
  simp [List.countP_cons]

theorem UrlCount_zero_of_none {db : DB} {u : String}
    (h : selectNewsByUrl u db = none) : UrlCount db u = 0 := by
  unfold UrlCount
  rw [List.countP_eq_zero]
  intro r hr
  intro hbeq
  exact select_none_iff.mp h r hr (eq_of_beq hbeq)

theorem UrlCount_eq_of_news {db : DB} {l : List NewsRow} (h : db.news = l) (u : String) :
    UrlCount db u = l.countP (fun r => r.newsUrl == u) := by
  unfold UrlCount
  rw [h]

theorem UrlCount_pos_of_some {db : DB} {u : String} {row : NewsRow}
    (h : selectNewsByUrl u db = some row) : 1 ≤ UrlCount db u := by
  unfold UrlCount
  rw [Nat.succ_le_iff, List.countP_pos_iff]
  exact ⟨row, select_some_mem h, by rw [select_some_url h]; exact beq_self_eq_true u⟩

/-- Address of a committed one-parent-one-sub batch: the parent URL and
the sub URL end up bound to row ids q and s, exactly one link row ⟨q, s⟩
is appended, the sub URL has exactly one row afterwards, and a
pre-existing binding for the sub URL is reused unchanged. -/
theorem addNewsList_one_parent_one_sub {st : String} {P : NewsItem} {S : SubNewsItem}
    {cat : Category} {sys sysF : Sys}
    (hP : P.hasSubnews = true) (hPs : P.subnews = some [S])
    (hb : IdsBounded sys) (hcount : UrlCount sys.db S.newsUrl ≤ 1)
    (h : addNewsList ⟨st, [P]⟩ cat sys = (sysF, .ok ())) :
    ∃ q s, urlId sysF.db P.newsUrl = some q ∧ urlId sysF.db S.newsUrl = some s ∧
      sysF.db.links = sys.db.links ++ [⟨q, s⟩] ∧
      UrlCount sysF.db S.newsUrl = 1 ∧
      (∀ s0, urlId sys.db S.newsUrl = some s0 → s = s0) := by
  have hgp := getOrCreateGenreId_preserves cat sys.db
  have hp := addNewsList_ok_processItems h
  have hbbase : IdsBounded (⟨(getOrCreateGenreId cat sys.db).2, sys.nextId⟩ : Sys) := by
    intro r hr
    rw [hgp.1] at hr
    exact hb r hr
  simp only [processItems] at hp
  rcases hitem : processItem (getOrCreateGenreId cat sys.db).1
      ⟨(getOrCreateGenreId cat sys.db).2, sys.nextId⟩ P with er | s1 <;>
    simp only [hitem] at hp
  · cases hp
  cases hp
  rcases hsel : selectNewsByUrl P.newsUrl (getOrCreateGenreId cat sys.db).2 with _ | prow <;>
    simp only [processItem, hsel, hP, hPs, insertSubnews] at hitem
  · -- parent URL not present: a fresh parent row is inserted
    have hins : insertNewsItem P (getOrCreateGenreId cat sys.db).1 sys.nextId
        (getOrCreateGenreId cat sys.db).2 =
        { (getOrCreateGenreId cat sys.db).2 with news :=
          (getOrCreateGenreId cat sys.db).2.news ++
            [mkNewsRow P (getOrCreateGenreId cat sys.db).1 sys.nextId] } :=
      @insertNewsItem_fresh ⟨(getOrCreateGenreId cat sys.db).2, sys.nextId⟩ P
        (getOrCreateGenreId cat sys.db).1 hbbase hsel
    rw [hins] at hitem
    rcases hstep : insertSubnewsStep (getOrCreateGenreId cat sys.db).1 sys.nextId
        ⟨{ (getOrCreateGenreId cat sys.db).2 with news :=
            (getOrCreateGenreId cat sys.db).2.news ++
              [mkNewsRow P (getOrCreateGenreId cat sys.db).1 sys.nextId] },
          sys.nextId + 1⟩ S with er | s2 <;>
      simp only [hstep, insertSubnews] at hitem
    · cases hitem
    cases hitem
    simp only [insertSubnewsStep] at hstep
    rcases hsub : selectNewsByUrl S.newsUrl
        ({ (getOrCreateGenreId cat sys.db).2 with news :=
          (getOrCreateGenreId cat sys.db).2.news ++
            [mkNewsRow P (getOrCreateGenreId cat sys.db).1 sys.nextId] } : DB) with _ | srow <;>
      simp only [hsub] at hstep
    · -- sub URL not present either: fresh sub row, then the link
      rcases hinsS : insertNewsStrict (mkSubRow S (getOrCreateGenreId cat sys.db).1
          (sys.nextId + 1))
          { (getOrCreateGenreId cat sys.db).2 with news :=
            (getOrCreateGenreId cat sys.db).2.news ++
              [mkNewsRow P (getOrCreateGenreId cat sys.db).1 sys.nextId] } with er | db1 <;>
        simp only [hinsS] at hstep
      · cases hstep
      rcases hlink : insertLink sys.nextId (sys.nextId + 1) db1 with er2 | db2 <;>
        simp only [hlink, Except.map] at hstep
      · cases hstep
      cases hstep
      obtain ⟨hne, hnews2, _, _, hlinks2⟩ := insertLink_ok hlink
      rcases insertNewsStrict_ok hinsS with rfl
      have hselF : ((getOrCreateGenreId cat sys.db).2.news.find?
          (fun r => r.newsUrl == P.newsUrl)) = none := hsel
      have hsubF : (((getOrCreateGenreId cat sys.db).2.news ++
          [mkNewsRow P (getOrCreateGenreId cat sys.db).1 sys.nextId]).find?
          (fun r => r.newsUrl == S.newsUrl)) = none := hsub
      have hnews2a : db2.news = ((getOrCreateGenreId cat sys.db).2.news ++
          [mkNewsRow P (getOrCreateGenreId cat sys.db).1 sys.nextId]) ++
          [mkSubRow S (getOrCreateGenreId cat sys.db).1 (sys.nextId + 1)] := hnews2
      have hlinks2a : db2.links = (getOrCreateGenreId cat sys.db).2.links ++
          [⟨sys.nextId, sys.nextId + 1⟩] := hlinks2
      refine ⟨sys.nextId, sys.nextId + 1, ?_, ?_, ?_, ?_, ?_⟩
      · unfold urlId selectNewsByUrl
        rw [hnews2a, List.find?_append, find?_append_of_none hselF]
        simp [List.find?, mkNewsRow, Option.or]
      · unfold urlId selectNewsByUrl
        rw [hnews2a, find?_append_of_none hsubF]
        simp [List.find?, mkSubRow]
      · rw [hlinks2a, hgp.2.1]
      · rw [UrlCount_eq_of_news hnews2a, List.countP_append, List.countP_append]
        have hz : ∀ r ∈ (getOrCreateGenreId cat sys.db).2.news ++
            [mkNewsRow P (getOrCreateGenreId cat sys.db).1 sys.nextId],
            ¬ (r.newsUrl == S.newsUrl) = true := List.find?_eq_none.mp hsubF
        rw [List.countP_eq_zero.mpr (fun r hr => hz r (List.mem_append_left _ hr)),
          List.countP_eq_zero.mpr (fun r hr => hz r (List.mem_append_right _ hr))]
        simp [List.countP_cons, mkSubRow]
      · intro s0 hs0
        have hcontra : urlId (getOrCreateGenreId cat sys.db).2 S.newsUrl = some s0 := by
          rw [urlId_congr hgp.1]
          exact hs0
        have hbasenone : ((getOrCreateGenreId cat sys.db).2.news.find?
            (fun r => r.newsUrl == S.newsUrl)) = none := by
          rw [List.find?_eq_none]
          intro r hr
          exact List.find?_eq_none.mp hsubF r (List.mem_append_left _ hr)
        rw [urlId] at hcontra
        unfold selectNewsByUrl at hcontra
        rw [hbasenone] at hcontra
        cases hcontra
    · -- sub URL already present after the parent insert
      rcases hlink : insertLink sys.nextId srow.id
          ({ (getOrCreateGenreId cat sys.db).2 with news :=
            (getOrCreateGenreId cat sys.db).2.news ++
              [mkNewsRow P (getOrCreateGenreId cat sys.db).1 sys.nextId] } : DB)
          with er2 | db2 <;>
        simp only [hlink, Except.map] at hstep
      · cases hstep
      cases hstep
      obtain ⟨hne, hnews2, _, _, hlinks2⟩ := insertLink_ok hlink
      have hselF : ((getOrCreateGenreId cat sys.db).2.news.find?
          (fun r => r.newsUrl == P.newsUrl)) = none := hsel
      have hnews2a : db2.news = (getOrCreateGenreId cat sys.db).2.news ++
          [mkNewsRow P (getOrCreateGenreId cat sys.db).1 sys.nextId] := hnews2
      have hlinks2a : db2.links = (getOrCreateGenreId cat sys.db).2.links ++
          [⟨sys.nextId, srow.id⟩] := hlinks2
      -- locate srow: it cannot be the freshly inserted parent row
      have hsub2 : (((getOrCreateGenreId cat sys.db).2.news.find?
          (fun r => r.newsUrl == S.newsUrl)).or
          (List.find? (fun r => r.newsUrl == S.newsUrl)
            [mkNewsRow P (getOrCreateGenreId cat sys.db).1 sys.nextId])) = some srow := by
        rw [← List.find?_append]
        exact hsub
      rcases hfb : ((getOrCreateGenreId cat sys.db).2.news.find?
          (fun r => r.newsUrl == S.newsUrl)) with _ | srow0
      · rw [hfb] at hsub2
        have hsub3 : (List.find? (fun r => r.newsUrl == S.newsUrl)
            [mkNewsRow P (getOrCreateGenreId cat sys.db).1 sys.nextId]) = some srow := hsub2
        have hsrow : srow = mkNewsRow P (getOrCreateGenreId cat sys.db).1 sys.nextId := by
          by_cases hpred : ((mkNewsRow P (getOrCreateGenreId cat sys.db).1
              sys.nextId).newsUrl == S.newsUrl) = true
          · have h4 : some (mkNewsRow P (getOrCreateGenreId cat sys.db).1 sys.nextId) =
                some srow := by
              rw [← hsub3]
              simp [List.find?, hpred]
            cases h4
            rfl
          · have h4 : (none : Option NewsRow) = some srow := by
              rw [← hsub3]
              simp [List.find?, hpred]
            cases h4
        exact absurd (by rw [hsrow]; rfl) hne
      · rw [hfb] at hsub2
        have hsub3 : some srow0 = some srow := hsub2
        cases hsub3
        -- srow comes from the pre-batch table
        have hbindbase : urlId (getOrCreateGenreId cat sys.db).2 S.newsUrl = some srow.id :=
          urlId_eq_some_iff.mpr ⟨srow, hfb, rfl⟩
        refine ⟨sys.nextId, srow.id, ?_, ?_, ?_, ?_, ?_⟩
        · unfold urlId selectNewsByUrl
          rw [hnews2a, List.find?_append, hselF]
          simp [List.find?, mkNewsRow, Option.or]
        · unfold urlId selectNewsByUrl
          rw [hnews2a, find?_append_of_some hfb]
          rfl
        · rw [hlinks2a, hgp.2.1]
        · have h1le : 1 ≤ (getOrCreateGenreId cat sys.db).2.news.countP
              (fun r => r.newsUrl == S.newsUrl) := by
            rw [Nat.succ_le_iff, List.countP_pos_iff]
            have h8 := List.find?_some hfb
            exact ⟨srow, List.mem_of_find?_eq_some hfb, h8⟩
          have hle1 : (getOrCreateGenreId cat sys.db).2.news.countP
              (fun r => r.newsUrl == S.newsUrl) ≤ 1 := by
            have h5 : UrlCount (getOrCreateGenreId cat sys.db).2 S.newsUrl =
                (getOrCreateGenreId cat sys.db).2.news.countP
                  (fun r => r.newsUrl == S.newsUrl) := rfl
            rw [← h5, UrlCount_congr hgp.1]
            exact hcount
          have hnp : ((mkNewsRow P (getOrCreateGenreId cat sys.db).1
              sys.nextId).newsUrl == S.newsUrl) = false := by
            cases hx : ((mkNewsRow P (getOrCreateGenreId cat sys.db).1
                sys.nextId).newsUrl == S.newsUrl) with
            | false => rfl
            | true =>
              have hPS : P.newsUrl = S.newsUrl := eq_of_beq hx
              have h6 := select_none_iff.mp hsel srow (List.mem_of_find?_eq_some hfb)
              exact absurd (by rw [hPS]; exact select_some_url hfb) h6
          rw [UrlCount_eq_of_news hnews2a, List.countP_append]
          have hc0 : (List.countP (fun r => r.newsUrl == S.newsUrl)
              [mkNewsRow P (getOrCreateGenreId cat sys.db).1 sys.nextId]) = 0 := by
            simp [List.countP_cons, hnp]
          rw [hc0]
          omega
        · intro s0 hs0
          have h7 : urlId (getOrCreateGenreId cat sys.db).2 S.newsUrl = some s0 := by
            rw [urlId_congr hgp.1]
            exact hs0
          rw [hbindbase] at h7
          cases h7
          rfl
  · -- parent URL already present: flag update, then the sub
    rcases hstep : insertSubnewsStep (getOrCreateGenreId cat sys.db).1 prow.id
        ⟨updateHasSubnews prow.id true (getOrCreateGenreId cat sys.db).2, sys.nextId⟩ S
        with er | s2 <;> simp only [hstep, insertSubnews] at hitem
    · cases hitem
    cases hitem
    simp only [insertSubnewsStep] at hstep
    have hupd_url : ∀ u, urlId (updateHasSubnews prow.id true
        (getOrCreateGenreId cat sys.db).2) u = urlId (getOrCreateGenreId cat sys.db).2 u :=
      fun u => urlId_update _ _ _ u
    rcases hsub : selectNewsByUrl S.newsUrl
        (updateHasSubnews prow.id true (getOrCreateGenreId cat sys.db).2) with _ | srow <;>
      simp only [hsub] at hstep
    · -- sub fresh
      rcases hinsS : insertNewsStrict (mkSubRow S (getOrCreateGenreId cat sys.db).1
          sys.nextId) (updateHasSubnews prow.id true (getOrCreateGenreId cat sys.db).2)
          with er | db1 <;> simp only [hinsS] at hstep
      · cases hstep
      rcases hlink : insertLink prow.id sys.nextId db1 with er2 | db2 <;>
        simp only [hlink, Except.map] at hstep
      · cases hstep
      cases hstep
      obtain ⟨hne, hnews2, _, _, hlinks2⟩ := insertLink_ok hlink
      rcases insertNewsStrict_ok hinsS with rfl
      refine ⟨prow.id, sys.nextId, ?_, ?_, ?_, ?_, ?_⟩
      · unfold urlId selectNewsByUrl
        rw [hnews2]
        have hfound : urlId (updateHasSubnews prow.id true
            (getOrCreateGenreId cat sys.db).2) P.newsUrl = some prow.id := by
          rw [hupd_url]
          exact urlId_eq_some_iff.mpr ⟨prow, hsel, rfl⟩
        rcases urlId_eq_some_iff.mp hfound with ⟨row2, hrow2, hid2⟩
        unfold selectNewsByUrl at hrow2
        rw [find?_append_of_some hrow2]
        simp [hid2]
      · unfold urlId selectNewsByUrl
        rw [hnews2]
        have holdS : ((updateHasSubnews prow.id true
            (getOrCreateGenreId cat sys.db).2).news.find?
            (fun r => r.newsUrl == S.newsUrl)) = none := hsub
        rw [find?_append_of_none holdS]
        simp [List.find?, mkSubRow]
      · rw [hlinks2]
        rw [show (updateHasSubnews prow.id true (getOrCreateGenreId cat sys.db).2).links =
          (getOrCreateGenreId cat sys.db).2.links from rfl, hgp.2.1]
      · have hc0 : UrlCount (updateHasSubnews prow.id true
            (getOrCreateGenreId cat sys.db).2) S.newsUrl = 0 := UrlCount_zero_of_none hsub
        rw [UrlCount_congr hnews2, UrlCount_append_one, hc0]
        simp [mkSubRow]
      · intro s0 hs0
        have : urlId (updateHasSubnews prow.id true (getOrCreateGenreId cat sys.db).2)
            S.newsUrl = some s0 := by
          rw [hupd_url, urlId_congr hgp.1]
          exact hs0
        rw [urlId, hsub] at this
        cases this
    · -- sub already present
      rcases hlink : insertLink prow.id srow.id
          (updateHasSubnews prow.id true (getOrCreateGenreId cat sys.db).2) with er2 | db2 <;>
        simp only [hlink, Except.map] at hstep
      · cases hstep
      cases hstep
      obtain ⟨hne, hnews2, _, _, hlinks2⟩ := insertLink_ok hlink
      have hbindupd : urlId (updateHasSubnews prow.id true
          (getOrCreateGenreId cat sys.db).2) S.newsUrl = some srow.id :=
        urlId_eq_some_iff.mpr ⟨srow, hsub, rfl⟩
      refine ⟨prow.id, srow.id, ?_, ?_, ?_, ?_, ?_⟩
      · have hfound : urlId (updateHasSubnews prow.id true
            (getOrCreateGenreId cat sys.db).2) P.newsUrl = some prow.id := by
          rw [hupd_url]
          exact urlId_eq_some_iff.mpr ⟨prow, hsel, rfl⟩
        rw [urlId_congr hnews2]
        exact hfound
      · rw [urlId_congr hnews2]
        exact hbindupd
      · rw [hlinks2]
        rw [show (updateHasSubnews prow.id true (getOrCreateGenreId cat sys.db).2).links =
          (getOrCreateGenreId cat sys.db).2.links from rfl, hgp.2.1]
      · have h1le : 1 ≤ UrlCount (updateHasSubnews prow.id true
            (getOrCreateGenreId cat sys.db).2) S.newsUrl := UrlCount_pos_of_some hsub
        have hle1 : UrlCount (updateHasSubnews prow.id true
            (getOrCreateGenreId cat sys.db).2) S.newsUrl ≤ 1 := by
          rw [UrlCount_update, UrlCount_congr hgp.1]
          exact hcount
        rw [UrlCount_congr hnews2 S.newsUrl]
        exact le_antisymm hle1 h1le
      · intro s0 hs0
        have : urlId (updateHasSubnews prow.id true (getOrCreateGenreId cat sys.db).2)
            S.newsUrl = some s0 := by
          rw [hupd_url, urlId_congr hgp.1]
          exact hs0
        rw [hbindupd] at this
        cases this
        rfl

theorem addNewsList_ok_urlId {payload : NewsImput} {cat : Category} {sys sys2 : Sys}
    (h : addNewsList payload cat sys = (sys2, .ok ())) :
    ∀ u p, urlId sys.db u = some p → urlId sys2.db u = some p := by
  intro u p hu
  have hp := addNewsList_ok_processItems h
  have htx := processItems_txstep hp
  apply htx.2.2.2.1
  rw [urlId_congr (getOrCreateGenreId_preserves cat sys.db).1]
  exact hu

/-! ## C2: a sub-item shared by two parents across two runs -/

/-- C2: when a sub-news item S appears under parent P1 in one committed
run and under a different parent P2 in a later committed run, afterwards
there is exactly one news row for S's source URL — the second run reuses
the id the first occurrence resolved to — while a link row was inserted
unconditionally for each occurrence: the link table grows by exactly
⟨q1, s⟩ then ⟨q2, s⟩, where q1 and q2 are the rows of P1 and P2 and s the
single row of S. -/
theorem subnews_shared_two_parents
    (st1 st2 : String) (P1 P2 : NewsItem) (S : SubNewsItem) (c1 c2 : Category)
    (sys sys1 sys2 : Sys)
    (hP1 : P1.hasSubnews = true) (hP1s : P1.subnews = some [S])
    (hP2 : P2.hasSubnews = true) (hP2s : P2.subnews = some [S])
    (hb : IdsBounded sys) (hcount : UrlCount sys.db S.newsUrl ≤ 1)
    (h1 : addNewsList ⟨st1, [P1]⟩ c1 sys = (sys1, .ok ()))
    (h2 : addNewsList ⟨st2, [P2]⟩ c2 sys1 = (sys2, .ok ())) :
    UrlCount sys2.db S.newsUrl = 1 ∧
    ∃ s q1 q2, urlId sys2.db S.newsUrl = some s ∧
      urlId sys2.db P1.newsUrl = some q1 ∧ urlId sys2.db P2.newsUrl = some q2 ∧
      sys2.db.links = (sys.db.links ++ [⟨q1, s⟩]) ++ [⟨q2, s⟩] := by
  obtain ⟨q1, s, hq1, hs1, hl1, hcnt1, _⟩ :=
    addNewsList_one_parent_one_sub hP1 hP1s hb hcount h1
  have hb1 : IdsBounded sys1 := by
    have hpr := (addNewsList_preserves ⟨st1, [P1]⟩ c1 sys).2.2 hb
    rw [h1] at hpr
    exact hpr
  obtain ⟨q2, s2, hq2, hs2, hl2, hcnt2, hreuse⟩ :=
    addNewsList_one_parent_one_sub hP2 hP2s hb1 (le_of_eq hcnt1) h2
  have hs2eq : s2 = s := hreuse s hs1
  subst hs2eq
  have hq1b : urlId sys2.db P1.newsUrl = some q1 := addNewsList_ok_urlId h2 _ _ hq1
  refine ⟨hcnt2, s2, q1, q2, hs2, hq1b, hq2, ?_⟩
  rw [hl2, hl1]

/-- Witness for subnews_shared_two_parents: the sub item with source URL
https://sub appears under https://p1 in a first run (world) and under
https://p2 in a second run (science), starting from an empty database. -/
theorem subnews_shared_two_parents_witness :
    UrlCount ((addNewsList ⟨"ok", [⟨1000, "t2", "x", none, "https://p2", "pub", none,
        some [⟨1000, "sub", "x", none, "https://sub", "pub", none⟩], true⟩]⟩
      Category.science
      ((addNewsList ⟨"ok", [⟨1000, "t1", "x", none, "https://p1", "pub", none,
          some [⟨1000, "sub", "x", none, "https://sub", "pub", none⟩], true⟩]⟩
        Category.world ⟨⟨[], [], [], none⟩, 0⟩).1)).1).db "https://sub" = 1 ∧
    ∃ s q1 q2, urlId ((addNewsList ⟨"ok", [⟨1000, "t2", "x", none, "https://p2", "pub", none,
        some [⟨1000, "sub", "x", none, "https://sub", "pub", none⟩], true⟩]⟩
      Category.science
      ((addNewsList ⟨"ok", [⟨1000, "t1", "x", none, "https://p1", "pub", none,
          some [⟨1000, "sub", "x", none, "https://sub", "pub", none⟩], true⟩]⟩
        Category.world ⟨⟨[], [], [], none⟩, 0⟩).1)).1).db "https://sub" = some s ∧
      urlId ((addNewsList ⟨"ok", [⟨1000, "t2", "x", none, "https://p2", "pub", none,
          some [⟨1000, "sub", "x", none, "https://sub", "pub", none⟩], true⟩]⟩
        Category.science
        ((addNewsList ⟨"ok", [⟨1000, "t1", "x", none, "https://p1", "pub", none,
            some [⟨1000, "sub", "x", none, "https://sub", "pub", none⟩], true⟩]⟩
          Category.world ⟨⟨[], [], [], none⟩, 0⟩).1)).1).db "https://p1" = some q1 ∧
      urlId ((addNewsList ⟨"ok", [⟨1000, "t2", "x", none, "https://p2", "pub", none,
          some [⟨1000, "sub", "x", none, "https://sub", "pub", none⟩], true⟩]⟩
        Category.science
        ((addNewsList ⟨"ok", [⟨1000, "t1", "x", none, "https://p1", "pub", none,
            some [⟨1000, "sub", "x", none, "https://sub", "pub", none⟩], true⟩]⟩
          Category.world ⟨⟨[], [], [], none⟩, 0⟩).1)).1).db "https://p2" = some q2 ∧
      ((addNewsList ⟨"ok", [⟨1000, "t2", "x", none, "https://p2", "pub", none,
          some [⟨1000, "sub", "x", none, "https://sub", "pub", none⟩], true⟩]⟩
        Category.science
        ((addNewsList ⟨"ok", [⟨1000, "t1", "x", none, "https://p1", "pub", none,
            some [⟨1000, "sub", "x", none, "https://sub", "pub", none⟩], true⟩]⟩
          Category.world ⟨⟨[], [], [], none⟩, 0⟩).1)).1).db.links =
        (DB.links ⟨[], [], [], none⟩ ++ [⟨q1, s⟩]) ++ [⟨q2, s⟩] :=
  subnews_shared_two_parents "ok" "ok"
    ⟨1000, "t1", "x", none, "https://p1", "pub", none,
      some [⟨1000, "sub", "x", none, "https://sub", "pub", none⟩], true⟩
    ⟨1000, "t2", "x", none, "https://p2", "pub", none,
      some [⟨1000, "sub", "x", none, "https://sub", "pub", none⟩], true⟩
    ⟨1000, "sub", "x", none, "https://sub", "pub", none⟩
    Category.world Category.science ⟨⟨[], [], [], none⟩, 0⟩
    ((addNewsList ⟨"ok", [⟨1000, "t1", "x", none, "https://p1", "pub", none,
        some [⟨1000, "sub", "x", none, "https://sub", "pub", none⟩], true⟩]⟩
      Category.world ⟨⟨[], [], [], none⟩, 0⟩).1)
    ((addNewsList ⟨"ok", [⟨1000, "t2", "x", none, "https://p2", "pub", none,
        some [⟨1000, "sub", "x", none, "https://sub", "pub", none⟩], true⟩]⟩
      Category.science
      ((addNewsList ⟨"ok", [⟨1000, "t1", "x", none, "https://p1", "pub", none,
          some [⟨1000, "sub", "x", none, "https://sub", "pub", none⟩], true⟩]⟩
        Category.world ⟨⟨[], [], [], none⟩, 0⟩).1)).1)
    rfl rfl rfl rfl (by decide) (by decide) (by decide) (by decide)

/-! ## C4: duplicate-key races are not caught and nothing is re-read -/

/-- C4 counterexample: at a concrete state, a duplicate-key race is not
treated as "already exists".  A concurrent connection commits a row for the
sub-item URL in the window after the existence SELECT missed; the plain
INSERT then raises ER_DUP_ENTRY, which no handler in insertSubnews catches,
so the error propagates and aborts the batch instead of re-reading the
existing row.  For the top-level path, INSERT IGNORE on a state already
holding the source URL leaves the table unchanged and raises nothing, but
no id is re-read: the freshly generated id 9 names no row, yet it is what
the caller keeps using. -/
theorem dupkey_race_counterexample :
    insertSubnewsStepRaced 1 7
      [⟨20, 1, "t2", "s2", none, none, false, "https://s", "pub", 1, none, true⟩]
      ⟨⟨[], [⟨7, 1, "t", "s", none, none, true, "https://p", "pub", 1, none, true⟩], [], none⟩, 8⟩
      ⟨1000, "t2", "s2", none, "https://s", "pub", none⟩ = .error .dupKey ∧
    insertNewsItem ⟨1000, "t", "s", none, "https://p", "pub", none, none, false⟩ 1 9
      ⟨[], [⟨7, 1, "t", "s", none, none, true, "https://p", "pub", 1, none, true⟩], [], none⟩ =
      ⟨[], [⟨7, 1, "t", "s", none, none, true, "https://p", "pub", 1, none, true⟩], [], none⟩ ∧
    ¬ hasRowId ⟨[], [⟨7, 1, "t", "s", none, none, true, "https://p", "pub", 1, none, true⟩], [], none⟩ 9 := by
  refine ⟨by decide, by decide, by decide⟩

/-- C4 as amended: a duplicate-key race on the unique source-URL constraint
is absorbed silently on the top-level path — INSERT IGNORE leaves the table
unchanged and raises nothing, but the existing row is not re-read, so the
newly generated (unstored) id remains in use for subsequent work — while on
the sub-item path the plain INSERT raises a duplicate-key error that no
handler in the engine catches, aborting the per-category batch. -/
theorem dupkey_race_behavior :
    (∀ (i : NewsItem) (g uuid : Nat) (db : DB),
      (∃ r ∈ db.news, r.newsUrl = i.newsUrl) →
      insertNewsItem i g uuid db = db) ∧
    (∀ (e : SubNewsItem) (g p : Nat) (rows : List NewsRow) (sys : Sys),
      (∃ r ∈ rows, r.newsUrl = e.newsUrl) →
      selectNewsByUrl e.newsUrl sys.db = none →
      insertSubnewsStepRaced g p rows sys e = .error .dupKey) := by
  constructor
  · rintro i g uuid db ⟨r, hr, hu⟩
    unfold insertNewsItem insertNewsIgnore
    rw [if_pos]
    rw [List.any_eq_true]
    refine ⟨r, hr, ?_⟩
    simp [mkNewsRow, hu]
  · rintro e g p rows sys ⟨r, hr, hu⟩ hsel
    unfold insertSubnewsStepRaced
    rw [hsel]
    have hconf : (({ sys.db with news := sys.db.news ++ rows } : DB).news.any
        (fun q => q.id == (mkSubRow e g sys.nextId).id ||
          q.newsUrl == (mkSubRow e g sys.nextId).newsUrl)) = true := by
      rw [List.any_eq_true]
      refine ⟨r, List.mem_append_right _ hr, ?_⟩
      simp [mkSubRow, hu]
    simp only [insertNewsStrict, hconf, if_pos]

/-- Witness for dupkey_race_behavior at the concrete race of
dupkey_race_counterexample's shape, with a distinct sub-item URL. -/
theorem dupkey_race_behavior_witness :
    insertNewsItem ⟨1000, "t", "s", none, "https://q", "pub", none, none, false⟩ 1 11
      ⟨[], [⟨3, 1, "t", "s", none, none, false, "https://q", "pub", 1, none, true⟩], [], none⟩ =
      ⟨[], [⟨3, 1, "t", "s", none, none, false, "https://q", "pub", 1, none, true⟩], [], none⟩ ∧
    insertSubnewsStepRaced 2 3
      [⟨21, 1, "u", "v", none, none, false, "https://r", "pub", 2, none, true⟩]
      ⟨⟨[], [⟨3, 1, "t", "s", none, none, false, "https://q", "pub", 1, none, true⟩], [], none⟩, 12⟩
      ⟨1000, "u", "v", none, "https://r", "pub", none⟩ = .error .dupKey :=
  ⟨dupkey_race_behavior.1 ⟨1000, "t", "s", none, "https://q", "pub", none, none, false⟩ 1 11
      ⟨[], [⟨3, 1, "t", "s", none, none, false, "https://q", "pub", 1, none, true⟩], [], none⟩
      ⟨⟨3, 1, "t", "s", none, none, false, "https://q", "pub", 1, none, true⟩, by decide, rfl⟩,
   dupkey_race_behavior.2 ⟨1000, "u", "v", none, "https://r", "pub", none⟩ 2 3
      [⟨21, 1, "u", "v", none, none, false, "https://r", "pub", 2, none, true⟩]
      ⟨⟨[], [⟨3, 1, "t", "s", none, none, false, "https://q", "pub", 1, none, true⟩], [], none⟩, 12⟩
      ⟨⟨21, 1, "u", "v", none, none, false, "https://r", "pub", 2, none, true⟩, by decide, rfl⟩
      (by decide)⟩

end NewsPipeline
